import Mathlib

/-!
# Verification of the serial host-monitor frame-processing core

A shallow embedding, in Lean 4, of the algorithmic core of
`serial_monitor.py`: the CRC/checksum engine (`CRCCalculator`), the generic
frame synchronizer (`GenericProtocolParser`), the built-in 38-byte parser
(`DataParser`), the multi-protocol dispatcher (`on_data_received`), the
field extractor (`PlotCanvas.parse_value_from_frame`), the recovery state
machine (`check_port_recovery` / `stop_recovery_check`) and the
time-calibration command builder (`calibrate_time`).

Bytes are modelled as `Nat` (meaningful values are `< 256`), byte strings
as `List Nat`, machine words carry explicit masks (`&&& 0xFFFF`) exactly
where the Python source has them.  Python slices with possibly-negative
indices are modelled by `pyDrop`, which reproduces Python's clamping
semantics including the `l[-0:] = l` corner case.  The parser loops are
modelled with explicit fuel; `buffer.length + 1` units of fuel are enough
to reproduce the Python loop exactly whenever the configured frame length
is at least 1 (for frame length 0 the Python loop does not terminate).
-/

set_option maxRecDepth 4000

namespace SerialMonitor

/-- Python `l[i:]` for an arbitrary (possibly negative) `Int` index:
nonnegative `i` drops `i` elements from the front (clamped), negative `i`
keeps the last `-i` elements (clamped).  Note `(-0 : Int) = 0`, so
`pyDrop (-(0:Int)) l = l`, exactly like Python's `l[-0:]`. -/
def pyDrop (i : Int) (l : List Nat) : List Nat :=
  if 0 ≤ i then l.drop i.toNat else l.drop (l.length - (-i).toNat)

/-- Python `bytes.find(pat)`: index of the first occurrence of `pat` as a
contiguous subsequence, `none` when absent (`-1` in Python).  The empty
pattern is found at index 0. -/
def findSub (buf pat : List Nat) : Option Nat :=
  if pat.isPrefixOf buf then some 0
  else
    match buf with
    | [] => none
    | _ :: t => (findSub t pat).map (· + 1)

/-- `struct.unpack('<H', b)` on a 2-byte slice: little-endian 16-bit read. -/
def unpackLE16 (l : List Nat) : Nat := l.getD 0 0 + 256 * l.getD 1 0

/-- `struct.unpack('>H', b)` on a 2-byte slice: big-endian 16-bit read. -/
def unpackBE16 (l : List Nat) : Nat := 256 * l.getD 0 0 + l.getD 1 0

/-! ## CRCCalculator (serial_monitor.py lines 38-103) -/

/-- One inner-loop round of `calculate_ccitt_crc16` / `calculate_crc16_xmodem`:
shift left, conditionally XOR the polynomial `0x1021`, mask to 16 bits. -/
def ccittRound (crc : Nat) : Nat :=
  if crc &&& 0x8000 ≠ 0 then ((crc <<< 1) ^^^ 0x1021) &&& 0xFFFF
  else (crc <<< 1) &&& 0xFFFF

/-- One inner-loop round of `calculate_modbus_crc16`: shift right,
conditionally XOR the reflected polynomial `0xA001`. -/
def modbusRound (crc : Nat) : Nat :=
  if crc &&& 0x0001 ≠ 0 then (crc >>> 1) ^^^ 0xA001
  else crc >>> 1

/-- `n` applications of a CRC round function (`for _ in range(8)`). -/
def crcRounds (round : Nat → Nat) : Nat → Nat → Nat
  | 0, crc => crc
  | n + 1, crc => crcRounds round n (round crc)

/-- Per-byte step shared by the CCITT and XMODEM CRCs: XOR the byte into
the high register byte, then 8 MSB-first rounds. -/
def ccittByteStep (crc byte : Nat) : Nat :=
  crcRounds ccittRound 8 (crc ^^^ (byte <<< 8))

/-- Per-byte step of the Modbus CRC: XOR the byte into the low register
byte, then 8 LSB-first rounds. -/
def modbusByteStep (crc byte : Nat) : Nat :=
  crcRounds modbusRound 8 (crc ^^^ byte)

/-- `CRCCalculator.calculate_ccitt_crc16`: polynomial 0x1021, initial 0xFFFF. -/
def calculate_ccitt_crc16 (data : List Nat) : Nat :=
  data.foldl ccittByteStep 0xFFFF

/-- `CRCCalculator.calculate_crc16_xmodem`: polynomial 0x1021, initial 0x0000. -/
def calculate_crc16_xmodem (data : List Nat) : Nat :=
  data.foldl ccittByteStep 0x0000

/-- `CRCCalculator.calculate_modbus_crc16`: reflected polynomial 0xA001,
initial 0xFFFF. -/
def calculate_modbus_crc16 (data : List Nat) : Nat :=
  data.foldl modbusByteStep 0xFFFF

/-- `CRCCalculator.calculate_sum_check`: `sum(data) & 0xFF`. -/
def calculate_sum_check (data : List Nat) : Nat :=
  data.sum &&& 0xFF

/-- `CRCCalculator.calculate_xor_check`: XOR fold of all bytes. -/
def calculate_xor_check (data : List Nat) : Nat :=
  data.foldl (· ^^^ ·) 0

/-! ## Protocol configuration and checksum verification -/

/-- A protocol configuration dictionary as read by `GenericProtocolParser`:
`name`, `header`, `tail`, `length`, `crc_type` (the Python UI strings,
with "无" = none, "累加和" = additive sum, "异或" = XOR), `enabled`. -/
structure ProtocolConfig where
  name : String
  header : List Nat
  tail : List Nat
  length : Nat
  crc_type : String
  enabled : Bool

/-- `GenericProtocolParser._verify_crc` (lines 374-422): checks the trailing
checksum bytes of a candidate frame against the recomputed checksum, with
the per-variant byte order; frames shorter than 3 (CRC16) resp. 2 (8-bit
checks) bytes are rejected outright; unknown kinds and "无" accept. -/
def verify_crc (cfg : ProtocolConfig) (frame : List Nat) : Bool :=
  if cfg.crc_type = "无" then true
  else if cfg.crc_type = "CRC16-XMODEM" ∨ cfg.crc_type = "CRC16-CCITT" ∨
      cfg.crc_type = "CRC16-MODBUS" then
    if frame.length < 3 then false
    else
      let data := frame.take (frame.length - 2)
      let last2 := frame.drop (frame.length - 2)
      if cfg.crc_type = "CRC16-MODBUS" then
        decide (unpackLE16 last2 = calculate_modbus_crc16 data)
      else if cfg.crc_type = "CRC16-XMODEM" then
        decide (unpackLE16 last2 = calculate_crc16_xmodem data)
      else
        decide (unpackBE16 last2 = calculate_ccitt_crc16 data)
  else if cfg.crc_type = "累加和" ∨ cfg.crc_type = "异或" then
    if frame.length < 2 then false
    else
      let data := frame.take (frame.length - 1)
      let received := frame.getD (frame.length - 1) 0
      if cfg.crc_type = "累加和" then decide (received = calculate_sum_check data)
      else decide (received = calculate_xor_check data)
  else true

/-! ## GenericProtocolParser (lines 289-372)

State is the private byte buffer.  `add_data` appends and applies the
10240/5120 cap; `parse` runs the synchronization loop.  The loop is
modelled with fuel; every iteration that continues removes at least one
byte from the buffer, so when `cfg.length ≥ 1` the initial fuel
`buffer.length + 1` used by `GP_parse` is never exhausted and the result
is exactly the Python loop's. -/

/-- `GenericProtocolParser.add_data` (lines 306-311): append, then truncate
to the most recent 5120 bytes when the buffer exceeds 10240 bytes. -/
def GP_add_data (buf data : List Nat) : List Nat :=
  let b := buf ++ data
  if b.length > 10240 then pyDrop (-5120) b else b

/-- One fuel-measured pass of the `while len(self.buffer) >= self.length`
loop of `GenericProtocolParser.parse` (lines 320-372).  Returns the emitted
frames (in order) and the final buffer. -/
def GP_parseLoop (cfg : ProtocolConfig) : Nat → List Nat → List (List Nat) × List Nat
  | 0, buf => ([], buf)
  | fuel + 1, buf =>
    if buf.length < cfg.length then ([], buf)
    else
      match (if 0 < cfg.header.length then findSub buf cfg.header else some 0) with
      | none =>
        -- header absent: keep the last len(header)-1 bytes, but only when
        -- the buffer is strictly longer than the header (Python line 327);
        -- note `buffer[-(1-1):]` keeps the whole buffer for 1-byte headers
        ([], if cfg.header.length < buf.length
             then pyDrop (-((cfg.header.length : Int) - 1)) buf else buf)
      | some d =>
        let buf2 := buf.drop d
        if buf2.length < cfg.length then ([], buf2)
        else
          let frame := buf2.take cfg.length
          if 0 < cfg.tail.length ∧
              pyDrop ((cfg.length : Int) - (cfg.tail.length : Int)) frame ≠ cfg.tail then
            GP_parseLoop cfg fuel (buf2.drop (max 1 cfg.header.length))
          else if verify_crc cfg frame = false then
            GP_parseLoop cfg fuel (buf2.drop (max 1 cfg.header.length))
          else
            let rest := GP_parseLoop cfg fuel (buf2.drop cfg.length)
            (frame :: rest.1, rest.2)

/-- `GenericProtocolParser.parse` (lines 313-372): no-op when the protocol
is disabled, otherwise the synchronization loop over the buffer. -/
def GP_parse (cfg : ProtocolConfig) (buf : List Nat) : List (List Nat) × List Nat :=
  if cfg.enabled then GP_parseLoop cfg (buf.length + 1) buf else ([], buf)

/-- Feed a sequence of chunks, each by `add_data` followed by `parse`
(exactly the per-chunk treatment in `on_data_received`), collecting all
emitted frames in order. -/
def GP_feedChunks (cfg : ProtocolConfig) (buf : List Nat) :
    List (List Nat) → List (List Nat) × List Nat
  | [] => ([], buf)
  | c :: cs =>
    let b1 := GP_add_data buf c
    let r1 := GP_parse cfg b1
    let r2 := GP_feedChunks cfg r1.2 cs
    (r1.1 ++ r2.1, r2.2)

/-! ## DataParser (lines 214-286): the built-in 38-byte protocol -/

/-- `DataParser.FRAME_HEADER`. -/
def DP_HEADER : List Nat := [0xA8, 0xA8]

/-- `DataParser.FRAME_TAIL`. -/
def DP_TAIL : List Nat := [0xAA, 0xAA]

/-- `DataParser.FRAME_LENGTH`. -/
def DP_LENGTH : Nat := 38

/-- `DataParser.add_data`: plain append, no size cap. -/
def DP_add_data (buf data : List Nat) : List Nat := buf ++ data

/-- The `while len(self.buffer) >= 38` loop of `DataParser.parse`
(lines 232-286); emitted results are modelled by their `raw_frame` bytes
(the numeric fields derived from them belong to the field extractor).
When the header is absent the whole buffer is cleared (line 238). -/
def DP_parseLoop : Nat → List Nat → List (List Nat) × List Nat
  | 0, buf => ([], buf)
  | fuel + 1, buf =>
    if buf.length < DP_LENGTH then ([], buf)
    else
      match findSub buf DP_HEADER with
      | none => ([], [])
      | some d =>
        let buf2 := buf.drop d
        if buf2.length < DP_LENGTH then ([], buf2)
        else
          let frame := buf2.take DP_LENGTH
          if (frame.drop 36).take 2 ≠ DP_TAIL then DP_parseLoop fuel (buf2.drop 2)
          else
            let rest := DP_parseLoop fuel (buf2.drop DP_LENGTH)
            (frame :: rest.1, rest.2)

/-- `DataParser.parse`. -/
def DP_parse (buf : List Nat) : List (List Nat) × List Nat :=
  DP_parseLoop (buf.length + 1) buf

/-! ## Multi-protocol dispatcher (`SerialMonitor.on_data_received`,
lines 3998-4041, and `init_protocol_parsers`, lines 6096-6102) -/

/-- The parsing-relevant state of the main window: the configured custom
protocols, the default `DataParser` buffer and one `GenericProtocolParser`
state (config + buffer) per constructed custom parser. -/
structure DispatcherState where
  protocol_configs : List ProtocolConfig
  defaultBuf : List Nat
  parserStates : List (ProtocolConfig × List Nat)

/-- `init_protocol_parsers`: one fresh parser per enabled configuration. -/
def init_protocol_parsers (cfgs : List ProtocolConfig) :
    List (ProtocolConfig × List Nat) :=
  (cfgs.filter (·.enabled)).map (fun c => (c, []))

/-- The conflict-avoidance test of `on_data_received` (lines 3998-4008):
the default parser is used unless some enabled custom protocol's header
equals the default header `A8 A8`. -/
def use_default (cfgs : List ProtocolConfig) : Bool :=
  !(cfgs.any fun c => c.enabled && decide (c.header = [0xA8, 0xA8]))

/-- The parsing core of `on_data_received` (lines 3998-4041): feed the
default parser iff there is no header conflict; always feed every custom
parser; return the new state, the default parser's emitted frames, and the
custom frames each tagged with its protocol's name. -/
def on_data_received (st : DispatcherState) (data : List Nat) :
    DispatcherState × List (List Nat) × List (String × List Nat) :=
  let useDef := use_default st.protocol_configs
  let dRes := if useDef then DP_parse (DP_add_data st.defaultBuf data)
              else ([], st.defaultBuf)
  let step := st.parserStates.map (fun p =>
    let b := GP_add_data p.2 data
    let r := GP_parse p.1 b
    ((p.1, r.2), r.1.map (fun f => (p.1.name, f))))
  (⟨st.protocol_configs, dRes.2, step.map (·.1)⟩, dRes.1, (step.map (·.2)).flatten)

/-! ## Field extractor (`PlotCanvas.parse_value_from_frame`, lines 599-661)

Extracted values are modelled by `FieldValue`: every finite IEEE or
integer value is carried as an exact rational, and the IEEE specials
(±infinity, NaN) that a `float`/`double` field with an all-ones exponent
decodes to are carried as explicit `special` values — Python returns them
as ordinary (non-`None`) floats, and the affine transform propagates them
by the exact IEEE special-value rules (`inf * 0.0 = nan`, sign of the
product with `coefficient / divisor`, finite `offset` absorbed).  On
finite values Python computes the affine transform in IEEE double
arithmetic; the expression `(raw * coefficient / divisor) + offset` is
modelled as the same expression over `ℚ`.  Python raises
`ZeroDivisionError` on a zero divisor — for finite and non-finite
numerators alike — which the bare `except` turns into `None`, modelled by
an explicit divisor-zero test. -/

/-- A curve/display field descriptor as read by `parse_value_from_frame`. -/
structure FieldConfig where
  start_byte : Nat
  byte_count : Nat
  data_type : String
  bit_mode : Bool
  bit_index : Nat
  coefficient : ℚ
  divisor : ℚ
  offset : ℚ

/-- Two's-complement reading of a `bits`-bit unsigned value. -/
def toSigned (bits u : Nat) : ℤ :=
  if u < 2 ^ (bits - 1) then (u : ℤ) else (u : ℤ) - 2 ^ bits

/-- Little-endian reassembly of a byte list (first byte least significant),
as `struct.unpack` with `<` does. -/
def asmLE (l : List Nat) : Nat := l.foldr (fun b acc => b + 256 * acc) 0

/-- Big-endian reassembly of a byte list (first byte most significant),
as `struct.unpack` with `>` does. -/
def asmBE (l : List Nat) : Nat := l.foldl (fun acc b => 256 * acc + b) 0

/-- The IEEE-754 special values a `float`/`double` field can decode to. -/
inductive SpecialIEEE where
  | posInf
  | negInf
  | nan
deriving DecidableEq

/-- A value extracted from a frame: an exact rational for integer fields
and finite IEEE values, or an IEEE special (Python hands these to the
consumer as ordinary non-`None` floats). -/
inductive FieldValue where
  | num (q : ℚ)
  | special (s : SpecialIEEE)
deriving DecidableEq

/-- Exact value of an IEEE-754 bit pattern with the given exponent and
mantissa field widths (8/23 for `float`, 11/52 for `double`): an exact
rational for every finite pattern, the matching special for an all-ones
exponent (zero mantissa: ±infinity by sign; otherwise NaN). -/
def decodeIEEE (expBits mantBits u : Nat) : FieldValue :=
  let s := u >>> (expBits + mantBits)
  let e := (u >>> mantBits) &&& (2 ^ expBits - 1)
  let m := u &&& (2 ^ mantBits - 1)
  if e = 2 ^ expBits - 1 then
    if m = 0 then
      if s % 2 = 1 then .special .negInf else .special .posInf
    else .special .nan
  else
    let bias : ℤ := 2 ^ (expBits - 1) - 1
    let mag : ℚ :=
      if e = 0 then (m : ℚ) * (2 : ℚ) ^ (1 - bias - mantBits)
      else ((2 ^ mantBits + m : ℕ) : ℚ) * (2 : ℚ) ^ ((e : ℤ) - bias - mantBits)
    .num (if s % 2 = 1 then -mag else mag)

/-- IEEE propagation of `value * coefficient / divisor + offset` when
`value` is a special (and `divisor ≠ 0`, `coefficient`/`offset` finite):
NaN stays NaN; an infinity times a zero coefficient is NaN; otherwise the
infinity keeps or flips its sign with the sign of
`coefficient / divisor`, and the finite offset is absorbed. -/
def affineSpecial (s : SpecialIEEE) (c d : ℚ) : SpecialIEEE :=
  match s with
  | .nan => .nan
  | .posInf => if c = 0 then .nan else if 0 < c * d then .posInf else .negInf
  | .negInf => if c = 0 then .nan else if 0 < c * d then .negInf else .posInf

/-- The affine transform of lines 655-656, on finite values exactly over
`ℚ` and on IEEE specials by `affineSpecial`. -/
def applyAffine (v : FieldValue) (c d o : ℚ) : FieldValue :=
  match v with
  | .num q => .num (q * c / d + o)
  | .special s => .special (affineSpecial s c d)

/-- The `data_type` dispatch of `parse_value_from_frame` (lines 623-653):
decode the raw value from the sliced field bytes, `none` when the slice is
too short for the type (Python `struct.error`/`IndexError` caught by the
bare `except`) or the type string is unknown. -/
def decode_raw (dt : String) (db : List Nat) : Option FieldValue :=
  if dt = "uint8" then
    if db.length < 1 then none else some (.num ((db.getD 0 0 : ℕ) : ℚ))
  else if dt = "int8" then
    if db.length < 1 then none else some (.num ((toSigned 8 (db.getD 0 0) : ℤ) : ℚ))
  else if dt = "uint16 (LE)" then
    if db.length < 2 then none else some (.num ((asmLE (db.take 2) : ℕ) : ℚ))
  else if dt = "uint16 (BE)" then
    if db.length < 2 then none else some (.num ((asmBE (db.take 2) : ℕ) : ℚ))
  else if dt = "int16 (LE)" then
    if db.length < 2 then none
    else some (.num ((toSigned 16 (asmLE (db.take 2)) : ℤ) : ℚ))
  else if dt = "int16 (BE)" then
    if db.length < 2 then none
    else some (.num ((toSigned 16 (asmBE (db.take 2)) : ℤ) : ℚ))
  else if dt = "uint32 (LE)" then
    if db.length < 4 then none else some (.num ((asmLE (db.take 4) : ℕ) : ℚ))
  else if dt = "uint32 (BE)" then
    if db.length < 4 then none else some (.num ((asmBE (db.take 4) : ℕ) : ℚ))
  else if dt = "int32 (LE)" then
    if db.length < 4 then none
    else some (.num ((toSigned 32 (asmLE (db.take 4)) : ℤ) : ℚ))
  else if dt = "int32 (BE)" then
    if db.length < 4 then none
    else some (.num ((toSigned 32 (asmBE (db.take 4)) : ℤ) : ℚ))
  else if dt = "float (LE)" then
    if db.length < 4 then none else some (decodeIEEE 8 23 (asmLE (db.take 4)))
  else if dt = "float (BE)" then
    if db.length < 4 then none else some (decodeIEEE 8 23 (asmBE (db.take 4)))
  else if dt = "double (LE)" then
    if db.length < 8 then none else some (decodeIEEE 11 52 (asmLE (db.take 8)))
  else if dt = "double (BE)" then
    if db.length < 8 then none else some (decodeIEEE 11 52 (asmBE (db.take 8)))
  else none

/-- `PlotCanvas.parse_value_from_frame` (lines 599-661): bounds check, then
bit extraction or typed decode of `byte_count` bytes at `start_byte`,
then the affine transform `(raw * coefficient / divisor) + offset` for the
non-bit types.  Any Python exception path (empty slice for the decode,
zero divisor) yields `none`. -/
def parse_value_from_frame (frame : List Nat) (cfg : FieldConfig) :
    Option FieldValue :=
  if frame.length < cfg.start_byte + cfg.byte_count then none
  else if cfg.bit_mode then
    if frame.length ≤ cfg.start_byte then none
    else some (.num ((((frame.getD cfg.start_byte 0) >>> cfg.bit_index) &&& 1 : ℕ) : ℚ))
  else
    match decode_raw cfg.data_type ((frame.drop cfg.start_byte).take cfg.byte_count) with
    | none => none
    | some raw =>
      if cfg.divisor = 0 then none
      else some (applyAffine raw cfg.coefficient cfg.divisor cfg.offset)

/-! ## Connection recovery (`start_smart_recovery` lines 4116-4136,
`check_port_recovery` lines 4138-4191, `recover_connection` lines
4192-4271, `stop_recovery_check` lines 4273-4289)

Times are rationals (seconds).  A probe tick is a pair `(t, present)`:
the wall-clock time of the 100 ms timer callback and whether the saved
target port is currently enumerable.  `attempts` counts the reconnect
attempts (`serial.Serial(...)` openings) made by `recover_connection`,
whether or not the open succeeds. -/

/-- The recovery-relevant state of the main window. -/
structure RecoveryState where
  lost_info : Bool
  start_time : Option ℚ
  stable_time : Option ℚ
  last_state : Bool
  timer_on : Bool
  attempts : Nat

/-- `stop_recovery_check`: cancel the probe timer, clear the start and
stabilization clocks and the saved snapshot. -/
def stop_recovery_check (s : RecoveryState) : RecoveryState :=
  { lost_info := false, start_time := none, stable_time := none,
    last_state := false, timer_on := false, attempts := s.attempts }

/-- `recover_connection`: bail out if the snapshot is gone, otherwise stop
probing and make one reconnect attempt from the snapshot. -/
def recover_connection (s : RecoveryState) : RecoveryState :=
  if s.lost_info then { stop_recovery_check s with attempts := s.attempts + 1 }
  else stop_recovery_check s

/-- `check_port_recovery`: one 100 ms probe tick at time `t` observing
`port_exists`. -/
def check_port_recovery (s : RecoveryState) (t : ℚ) (port_exists : Bool) :
    RecoveryState :=
  match s.start_time with
  | none => stop_recovery_check s
  | some t0 =>
    if s.lost_info = false then stop_recovery_check s
    else if t - t0 > 10 then stop_recovery_check s
    else if port_exists then
      if s.last_state = false then
        { s with stable_time := some t, last_state := true }
      else
        match s.stable_time with
        | some ts => if t - ts ≥ 1 then recover_connection s else s
        | none => s
    else
      { s with stable_time := if s.last_state then none else s.stable_time,
               last_state := false }

/-- `start_smart_recovery` with a saved snapshot: record the probing start
time, reset the stabilization clock, start the 100 ms probe timer. -/
def start_smart_recovery (t0 : ℚ) : RecoveryState :=
  { lost_info := true, start_time := some t0, stable_time := none,
    last_state := false, timer_on := true, attempts := 0 }

/-- A timer callback only runs while its timer is active. -/
def recovery_tick (s : RecoveryState) (tp : ℚ × Bool) : RecoveryState :=
  if s.timer_on then check_port_recovery s tp.1 tp.2 else s

/-- Run a whole sequence of probe ticks. -/
def runRecovery (s : RecoveryState) (ticks : List (ℚ × Bool)) : RecoveryState :=
  ticks.foldl recovery_tick s

/-! ## Time calibration (`decimal_to_bcd` lines 4316-4322,
`calibrate_time` lines 4324-4364) -/

/-- `SerialMonitor.decimal_to_bcd`: packed BCD of a decimal value, each
nibble masked to 4 bits as in the source. -/
def decimal_to_bcd (v : Nat) : Nat :=
  (((v / 10) &&& 0x0F) <<< 4) ||| ((v % 10) &&& 0x0F)

/-- The byte string written by `calibrate_time` for a wall-clock time:
fixed prefix, six BCD time bytes, CRC16-XMODEM low byte then high byte. -/
def calibrate_time_bytes (year month day hour minute second : Nat) : List Nat :=
  let data := [0x06, 0x00, 0x10, 0x24, 0x08] ++
    [decimal_to_bcd (year % 100), decimal_to_bcd month, decimal_to_bcd day,
     decimal_to_bcd hour, decimal_to_bcd minute, decimal_to_bcd second]
  let crc := calculate_crc16_xmodem data
  data ++ [crc &&& 0xFF, (crc >>> 8) &&& 0xFF]

/-! ## Supporting lemmas: checksum bounds and characterizations -/

/-- The CCITT round always masks to 16 bits. -/
lemma ccittRound_lt (c : Nat) : ccittRound c < 65536 := by
  unfold ccittRound
  split
  · have : ((c <<< 1) ^^^ 0x1021) &&& 0xFFFF ≤ 0xFFFF := Nat.and_le_right
    omega
  · have : (c <<< 1) &&& 0xFFFF ≤ 0xFFFF := Nat.and_le_right
    omega

lemma crcRounds_ccitt_lt (n c : Nat) (hn : 0 < n) :
    crcRounds ccittRound n c < 65536 := by
  induction n generalizing c with
  | zero => omega
  | succ m ih =>
    rw [crcRounds]
    rcases Nat.eq_zero_or_pos m with hm | hm
    · subst hm; exact ccittRound_lt c
    · exact ih (ccittRound c) hm

lemma ccittByteStep_lt (c b : Nat) : ccittByteStep c b < 65536 :=
  crcRounds_ccitt_lt 8 _ (by omega)

lemma foldl_ccittByteStep_lt (data : List Nat) (init : Nat) (h : init < 65536) :
    data.foldl ccittByteStep init < 65536 := by
  induction data generalizing init with
  | nil => exact h
  | cons b t ih => exact ih (ccittByteStep init b) (ccittByteStep_lt init b)

lemma modbusRound_lt (c : Nat) (h : c < 65536) : modbusRound c < 65536 := by
  unfold modbusRound
  have h1 : c >>> 1 < 65536 := by
    rw [Nat.shiftRight_eq_div_pow]; omega
  split
  · have : c >>> 1 < 2 ^ 16 := h1
    have : (c >>> 1) ^^^ 0xA001 < 2 ^ 16 := Nat.xor_lt_two_pow this (by norm_num)
    simpa using this
  · exact h1

lemma crcRounds_modbus_lt (n c : Nat) (h : c < 65536) :
    crcRounds modbusRound n c < 65536 := by
  induction n generalizing c with
  | zero => exact h
  | succ m ih => exact ih (modbusRound c) (modbusRound_lt c h)

lemma modbusByteStep_lt (c b : Nat) (hc : c < 65536) (hb : b < 256) :
    modbusByteStep c b < 65536 := by
  unfold modbusByteStep
  refine crcRounds_modbus_lt 8 _ ?_
  have : c ^^^ b < 2 ^ 16 := Nat.xor_lt_two_pow (by omega) (by omega)
  simpa using this

lemma foldl_modbusByteStep_lt (data : List Nat) (hbytes : ∀ b ∈ data, b < 256)
    (init : Nat) (h : init < 65536) : data.foldl modbusByteStep init < 65536 := by
  induction data generalizing init with
  | nil => exact h
  | cons b t ih =>
    exact ih (fun x hx => hbytes x (List.mem_cons_of_mem b hx))
      (modbusByteStep init b)
      (modbusByteStep_lt init b h (hbytes b (List.mem_cons_self b t)))

lemma xor_foldl_shift (l : List Nat) (x : Nat) :
    l.foldl (· ^^^ ·) x = x ^^^ l.foldl (· ^^^ ·) 0 := by
  induction l generalizing x with
  | nil => simp
  | cons b t ih =>
    simp only [List.foldl_cons]
    rw [ih (x ^^^ b), ih (0 ^^^ b), Nat.zero_xor, Nat.xor_assoc]

lemma xor_foldl_lt (data : List Nat) (hbytes : ∀ b ∈ data, b < 256)
    (init : Nat) (h : init < 256) : data.foldl (· ^^^ ·) init < 256 := by
  induction data generalizing init with
  | nil => exact h
  | cons b t ih =>
    refine ih (fun x hx => hbytes x (List.mem_cons_of_mem b hx)) (init ^^^ b) ?_
    have : init ^^^ b < 2 ^ 8 :=
      Nat.xor_lt_two_pow (by omega) (by have := hbytes b (List.mem_cons_self b t); omega)
    omega

/-- The fixed nine-byte ASCII payload "123456789" used as a standard CRC
check value. -/
def crcTestPayload : List Nat := [0x31, 0x32, 0x33, 0x34, 0x35, 0x36, 0x37, 0x38, 0x39]

/-- C7.  Checksum engine reference correctness: each of the five checksum
functions of `CRCCalculator` is a deterministic total function of the byte
list (they are Lean functions); CCITT and XMODEM share the identical
MSB-first 0x1021 per-byte step and differ only in the initial value 0xFFFF
vs 0x0000; Sum8 is the byte sum mod 256, Xor8 the XOR fold; on the empty
input CCITT gives 0xFFFF, XMODEM 0x0000, Sum8 0 and Xor8 0; on the
standard payload "123456789" they give the published check values; and all
results fit their output width. -/
theorem checksum_engine_reference (data : List Nat) :
    ((∀ b ∈ data, b < 256) →
      calculate_modbus_crc16 data < 65536 ∧ calculate_xor_check data < 256) ∧
    calculate_ccitt_crc16 [] = 0xFFFF ∧
    calculate_crc16_xmodem [] = 0x0000 ∧
    calculate_sum_check [] = 0 ∧
    calculate_xor_check [] = 0 ∧
    calculate_ccitt_crc16 crcTestPayload = 0x29B1 ∧
    calculate_crc16_xmodem crcTestPayload = 0x31C3 ∧
    calculate_modbus_crc16 crcTestPayload = 0x4B37 ∧
    calculate_sum_check crcTestPayload = 0xDD ∧
    calculate_xor_check crcTestPayload = 0x31 ∧
    calculate_ccitt_crc16 data = data.foldl ccittByteStep 0xFFFF ∧
    calculate_crc16_xmodem data = data.foldl ccittByteStep 0x0000 ∧
    calculate_sum_check data = data.sum % 256 ∧
    calculate_xor_check data = data.foldr (· ^^^ ·) 0 ∧
    calculate_ccitt_crc16 data < 65536 ∧
    calculate_crc16_xmodem data < 65536 ∧
    calculate_sum_check data < 256 := by
  refine ⟨?_, by decide, by decide, by decide, by decide, by decide, by decide,
    by decide, by decide, by decide, rfl, rfl, ?_, ?_, ?_, ?_, ?_⟩
  · intro hb
    exact ⟨foldl_modbusByteStep_lt data hb 0xFFFF (by norm_num),
      xor_foldl_lt data hb 0 (by norm_num)⟩
  · show data.sum &&& 0xFF = data.sum % 256
    have : (0xFF : Nat) = 2 ^ 8 - 1 := by norm_num
    rw [this, Nat.and_pow_two_sub_one_eq_mod]
  · show data.foldl (· ^^^ ·) 0 = data.foldr (· ^^^ ·) 0
    induction data with
    | nil => rfl
    | cons b t ih =>
      simp only [List.foldl_cons, List.foldr_cons]
      rw [xor_foldl_shift, Nat.zero_xor, ih]
  · exact foldl_ccittByteStep_lt data 0xFFFF (by norm_num)
  · exact foldl_ccittByteStep_lt data 0x0000 (by norm_num)
  · show data.sum &&& 0xFF < 256
    have h := Nat.and_le_right (n := data.sum) (m := 0xFF)
    omega

/-- Witness for C7: the byte-range hypothesis discharged at a concrete
byte list. -/
theorem checksum_engine_reference_witness :
    calculate_modbus_crc16 [0xAB, 5] < 65536 ∧ calculate_xor_check [0xAB, 5] < 256 :=
  (checksum_engine_reference [0xAB, 5]).1 (by decide)

/-! ## C9: time-calibration command encoding -/

/-- The claim's BCD formula, `((v div 10) <<< 4) ||| (v mod 10)`, without
the nibble masks of the source (they agree for `v ≤ 99`). -/
def bcd_spec (v : Nat) : Nat := ((v / 10) <<< 4) ||| (v % 10)

lemma decimal_to_bcd_eq_spec (v : Nat) (h : v ≤ 99) :
    decimal_to_bcd v = bcd_spec v := by
  unfold decimal_to_bcd bcd_spec
  have h10 : v / 10 < 2 ^ 4 := by omega
  have h1 : v % 10 < 2 ^ 4 := by omega
  have e4 : (0x0F : Nat) = 2 ^ 4 - 1 := by norm_num
  rw [e4, Nat.and_pow_two_sub_one_of_lt_two_pow h10,
    Nat.and_pow_two_sub_one_of_lt_two_pow h1]

/-- C9.  Time-calibration command encoding: the command is exactly 13
bytes; bytes 0-4 are the fixed prefix `06 00 10 24 08`; bytes 5-10 are the
BCD encodings (claim formula) of year mod 100, month, day, hour, minute,
second; bytes 11-12 are the CRC16-XMODEM of the preceding 11 bytes, low
byte first, high byte second. -/
theorem time_calibration_encoding (y mo d h mi s : Nat)
    (hmo : mo ≤ 99) (hd : d ≤ 99) (hh : h ≤ 99) (hmi : mi ≤ 99) (hs : s ≤ 99) :
    (calibrate_time_bytes y mo d h mi s).length = 13 ∧
    (calibrate_time_bytes y mo d h mi s).take 11 =
      [0x06, 0x00, 0x10, 0x24, 0x08, bcd_spec (y % 100), bcd_spec mo,
       bcd_spec d, bcd_spec h, bcd_spec mi, bcd_spec s] ∧
    (calibrate_time_bytes y mo d h mi s).drop 11 =
      [calculate_crc16_xmodem ((calibrate_time_bytes y mo d h mi s).take 11) % 256,
       calculate_crc16_xmodem ((calibrate_time_bytes y mo d h mi s).take 11) / 256] := by
  have hy : y % 100 ≤ 99 := by omega
  have hbcds : decimal_to_bcd (y % 100) = bcd_spec (y % 100) ∧
      decimal_to_bcd mo = bcd_spec mo ∧ decimal_to_bcd d = bcd_spec d ∧
      decimal_to_bcd h = bcd_spec h ∧ decimal_to_bcd mi = bcd_spec mi ∧
      decimal_to_bcd s = bcd_spec s :=
    ⟨decimal_to_bcd_eq_spec _ hy, decimal_to_bcd_eq_spec _ hmo,
     decimal_to_bcd_eq_spec _ hd, decimal_to_bcd_eq_spec _ hh,
     decimal_to_bcd_eq_spec _ hmi, decimal_to_bcd_eq_spec _ hs⟩
  obtain ⟨e1, e2, e3, e4, e5, e6⟩ := hbcds
  have hcrclt : calculate_crc16_xmodem
      [0x06, 0x00, 0x10, 0x24, 0x08, decimal_to_bcd (y % 100), decimal_to_bcd mo,
       decimal_to_bcd d, decimal_to_bcd h, decimal_to_bcd mi, decimal_to_bcd s] <
      65536 := foldl_ccittByteStep_lt _ _ (by norm_num)
  have hmask : ∀ c : Nat, c < 65536 →
      c &&& 0xFF = c % 256 ∧ (c >>> 8) &&& 0xFF = c / 256 := by
    intro c hc
    have e8 : (0xFF : Nat) = 2 ^ 8 - 1 := by norm_num
    constructor
    · rw [e8, Nat.and_pow_two_sub_one_eq_mod]
    · rw [e8, Nat.and_pow_two_sub_one_eq_mod, Nat.shiftRight_eq_div_pow]
      have : c / 2 ^ 8 < 2 ^ 8 := Nat.div_lt_of_lt_mul (by omega)
      omega
  unfold calibrate_time_bytes
  simp only [List.cons_append, List.nil_append]
  refine ⟨rfl, ?_, ?_⟩
  · simp only [List.take_succ_cons, List.take_zero]
    rw [e1, e2, e3, e4, e5, e6]
  · simp only [List.drop_succ_cons, List.drop_zero, List.take_succ_cons, List.take_zero]
    rw [(hmask _ hcrclt).1, (hmask _ hcrclt).2]

/-- Witness for C9: the encoding theorem instantiated at a concrete
wall-clock time. -/
theorem time_calibration_encoding_witness :
    (calibrate_time_bytes 2026 10 12 3 4 5).length = 13 ∧
    (calibrate_time_bytes 2026 10 12 3 4 5).take 11 =
      [0x06, 0x00, 0x10, 0x24, 0x08, bcd_spec (2026 % 100), bcd_spec 10,
       bcd_spec 12, bcd_spec 3, bcd_spec 4, bcd_spec 5] ∧
    (calibrate_time_bytes 2026 10 12 3 4 5).drop 11 =
      [calculate_crc16_xmodem ((calibrate_time_bytes 2026 10 12 3 4 5).take 11) % 256,
       calculate_crc16_xmodem ((calibrate_time_bytes 2026 10 12 3 4 5).take 11) / 256] :=
  time_calibration_encoding 2026 10 12 3 4 5 (by decide) (by decide) (by decide)
    (by decide) (by decide)

/-! ## Supporting lemmas: `findSub` and the synchronizer loop -/

lemma findSub_here {buf pat : List Nat} (h : pat <+: buf) :
    findSub buf pat = some 0 := by
  rw [findSub.eq_def, if_pos (List.isPrefixOf_iff_prefix.mpr h)]

lemma findSub_some_drop :
    ∀ {buf : List Nat} {pat : List Nat} {d : Nat},
      findSub buf pat = some d → pat <+: buf.drop d := by
  intro buf
  induction buf with
  | nil =>
    intro pat d h
    rw [findSub.eq_def] at h
    split at h
    · next hp =>
      cases h
      simpa using List.isPrefixOf_iff_prefix.mp hp
    · cases h
  | cons a t ih =>
    intro pat d h
    rw [findSub.eq_def] at h
    split at h
    · next hp =>
      cases h
      simpa using List.isPrefixOf_iff_prefix.mp hp
    · simp only [Option.map_eq_some'] at h
      obtain ⟨d2, hd2, rfl⟩ := h
      simpa using ih hd2

/-- A valid frame for a protocol configuration: exactly the configured
length, starts with the header, ends with the tail, passes the configured
checksum. -/
def ValidFrame (cfg : ProtocolConfig) (F : List Nat) : Prop :=
  F.length = cfg.length ∧ cfg.header <+: F ∧ cfg.tail <:+ F ∧
    verify_crc cfg F = true

instance (cfg : ProtocolConfig) (F : List Nat) : Decidable (ValidFrame cfg F) := by
  unfold ValidFrame
  infer_instance

/-- On a frame of exactly the configured length whose tail matches, the
loop's tail slice equals the configured tail. -/
lemma tail_slice_of_suffix {cfg : ProtocolConfig} {F : List Nat}
    (hlen : F.length = cfg.length) (ht : cfg.tail <:+ F) :
    pyDrop ((cfg.length : Int) - (cfg.tail.length : Int)) F = cfg.tail := by
  obtain ⟨p, hp⟩ := ht
  have hplen : p.length + cfg.tail.length = cfg.length := by
    rw [← hlen, ← hp, List.length_append]
  have htle : cfg.tail.length ≤ cfg.length := by omega
  unfold pyDrop
  rw [if_pos (by omega : (0:Int) ≤ (cfg.length : Int) - (cfg.tail.length : Int))]
  have htoNat : ((cfg.length : Int) - (cfg.tail.length : Int)).toNat =
      cfg.length - cfg.tail.length := by omega
  rw [htoNat, ← hp]
  have : cfg.length - cfg.tail.length = p.length := by omega
  rw [this, List.drop_left]

lemma GP_parseLoop_nil (cfg : ProtocolConfig) (hL : 1 ≤ cfg.length) (fuel : Nat) :
    GP_parseLoop cfg fuel [] = ([], []) := by
  cases fuel with
  | zero => rfl
  | succ f =>
    rw [GP_parseLoop, if_pos]
    simpa using hL

lemma GP_parse_short (cfg : ProtocolConfig) (buf : List Nat)
    (h : buf.length < cfg.length) : GP_parse cfg buf = ([], buf) := by
  unfold GP_parse
  split
  · rw [GP_parseLoop, if_pos h]
  · rfl

/-- One full successful loop iteration: header found at `d`, enough bytes,
tail and checksum pass; the frame is emitted and the loop continues after
removing it. -/
lemma GP_parseLoop_succ_emit (cfg : ProtocolConfig) (fuel : Nat)
    (buf : List Nat) (d : Nat)
    (hge : ¬ buf.length < cfg.length)
    (hfind : (if 0 < cfg.header.length then findSub buf cfg.header else some 0) =
      some d)
    (hge2 : ¬ (buf.drop d).length < cfg.length)
    (htail : ¬(0 < cfg.tail.length ∧
      pyDrop ((cfg.length : Int) - (cfg.tail.length : Int))
        ((buf.drop d).take cfg.length) ≠ cfg.tail))
    (hcrc : verify_crc cfg ((buf.drop d).take cfg.length) = true) :
    GP_parseLoop cfg (fuel + 1) buf =
      (((buf.drop d).take cfg.length) ::
        (GP_parseLoop cfg fuel ((buf.drop d).drop cfg.length)).1,
       (GP_parseLoop cfg fuel ((buf.drop d).drop cfg.length)).2) := by
  rw [GP_parseLoop, if_neg hge, hfind]
  simp only [if_neg hge2, if_neg htail, hcrc]
  simp

/-- One loop iteration rejecting the candidate on a checksum mismatch
(tail passing): exactly `max 1 header_length` bytes are removed after the
found header position and the loop restarts within the same `parse` call. -/
lemma GP_parseLoop_succ_crc_fail (cfg : ProtocolConfig) (fuel : Nat)
    (buf : List Nat) (d : Nat)
    (hge : ¬ buf.length < cfg.length)
    (hfind : (if 0 < cfg.header.length then findSub buf cfg.header else some 0) =
      some d)
    (hge2 : ¬ (buf.drop d).length < cfg.length)
    (htail : ¬(0 < cfg.tail.length ∧
      pyDrop ((cfg.length : Int) - (cfg.tail.length : Int))
        ((buf.drop d).take cfg.length) ≠ cfg.tail))
    (hcrc : verify_crc cfg ((buf.drop d).take cfg.length) = false) :
    GP_parseLoop cfg (fuel + 1) buf =
      GP_parseLoop cfg fuel ((buf.drop d).drop (max 1 cfg.header.length)) := by
  rw [GP_parseLoop, if_neg hge, hfind]
  simp only [if_neg hge2, if_neg htail, hcrc]
  simp

/-- Parsing a buffer that is exactly one valid frame emits that frame and
empties the buffer. -/
lemma GP_parseLoop_single_valid (cfg : ProtocolConfig) (F : List Nat)
    (hL : 1 ≤ cfg.length) (hv : ValidFrame cfg F) (fuel : Nat) :
    GP_parseLoop cfg (fuel + 1) F = ([F], []) := by
  obtain ⟨hlen, hhdr, htail, hcrc⟩ := hv
  have hfind : (if 0 < cfg.header.length then findSub F cfg.header else some 0) =
      some 0 := by
    split
    · exact findSub_here hhdr
    · rfl
  have htake : (F.drop 0).take cfg.length = F := by
    rw [List.drop_zero, ← hlen, List.take_length]
  have hdrop : (F.drop 0).drop cfg.length = [] := by
    rw [List.drop_zero, ← hlen, List.drop_length]
  rw [GP_parseLoop_succ_emit cfg fuel F 0 (by omega) hfind
      (by rw [List.drop_zero, hlen]; omega)
      (by rw [htake]; intro hc; exact hc.2 (tail_slice_of_suffix hlen htail))
      (by rw [htake]; exact hcrc)]
  rw [htake, hdrop, GP_parseLoop_nil cfg hL fuel]

lemma GP_parse_single_valid (cfg : ProtocolConfig) (F : List Nat)
    (hen : cfg.enabled = true) (hL : 1 ≤ cfg.length) (hv : ValidFrame cfg F) :
    GP_parse cfg F = ([F], []) := by
  unfold GP_parse
  rw [if_pos hen]
  exact GP_parseLoop_single_valid cfg F hL hv _

lemma GP_add_data_no_overflow (buf data : List Nat)
    (h : buf.length + data.length ≤ 10240) :
    GP_add_data buf data = buf ++ data := by
  unfold GP_add_data
  rw [if_neg]
  simp only [List.length_append]
  omega

/-! ## C4: header-not-found trimming -/

/-- C4 (amended).  When the buffer holds at least frame-length bytes, the
header is non-empty, and the header does not occur in the buffer: the
custom parser emits nothing and (a) keeps exactly the last
`header_length − 1` bytes whenever `header_length ≥ 2` and the buffer is
strictly longer than the header, but (b) keeps the buffer unchanged when
`header_length = 1` (Python's `buffer[-0:]` is the whole buffer) or when
the buffer is not longer than the header; the built-in default parser
clears its entire buffer instead. -/
theorem header_not_found_trimming (cfg : ProtocolConfig) (B : List Nat)
    (hen : cfg.enabled = true)
    (hlen : cfg.length ≤ B.length)
    (hhdr : cfg.header ≠ [])
    (hfind : findSub B cfg.header = none) :
    (2 ≤ cfg.header.length → cfg.header.length < B.length →
      GP_parse cfg B = ([], B.drop (B.length - (cfg.header.length - 1)))) ∧
    (cfg.header.length = 1 ∨ B.length ≤ cfg.header.length →
      GP_parse cfg B = ([], B)) ∧
    (∀ B2 : List Nat, DP_LENGTH ≤ B2.length → findSub B2 DP_HEADER = none →
      DP_parse B2 = ([], [])) := by
  have hpos : 0 < cfg.header.length := List.length_pos.mpr hhdr
  have hbase : GP_parse cfg B =
      ([], if cfg.header.length < B.length
           then pyDrop (-((cfg.header.length : Int) - 1)) B else B) := by
    unfold GP_parse
    rw [if_pos hen, GP_parseLoop, if_neg (by omega), if_pos hpos, hfind]
  refine ⟨?_, ?_, ?_⟩
  · intro h2 hlt
    rw [hbase, if_pos hlt]
    unfold pyDrop
    rw [if_neg (by omega : ¬ (0:Int) ≤ -((cfg.header.length : Int) - 1))]
    congr 2
    omega
  · intro hcase
    rw [hbase]
    rcases hcase with h1 | hble
    · split
      · unfold pyDrop
        rw [h1]
        norm_num
      · rfl
    · rw [if_neg (by omega)]
  · intro B2 hB2 hf2
    unfold DP_parse
    rw [DP_parseLoop, if_neg (by unfold DP_LENGTH at hB2 ⊢; omega), hf2]

/-- The protocol used in the C4 counterexample: single-byte header `AA`,
frame length 2, no tail, no checksum. -/
def cfgC4 : ProtocolConfig := ⟨"h1", [0xAA], [], 2, "无", true⟩

/-- C4 (counterexample).  For a single-byte header, a buffer of at least
frame length in which the header does not occur is kept *whole* by
`parse` — not trimmed to the last `header_length − 1 = 0` bytes as the
claim states. -/
theorem header_not_found_trimming_counterexample :
    cfgC4.header.length = 1 ∧
    cfgC4.length ≤ ([1, 2, 3] : List Nat).length ∧
    findSub [1, 2, 3] cfgC4.header = none ∧
    GP_parse cfgC4 [1, 2, 3] = ([], [1, 2, 3]) ∧
    ([1, 2, 3] : List Nat) ≠ [] := by
  decide

/-- Witness for C4 at a 2-byte header and a 3-byte headerless buffer. -/
theorem header_not_found_trimming_witness :
    GP_parse ⟨"h2", [0xAA, 0xAB], [], 2, "无", true⟩ [1, 2, 3] = ([], [3]) := by
  have h := (header_not_found_trimming ⟨"h2", [0xAA, 0xAB], [], 2, "无", true⟩
    [1, 2, 3] (by decide) (by decide) (by decide) (by decide)).1
    (by decide) (by decide)
  simpa using h

/-! ## C3: checksum verification byte order -/

/-- The acceptance rule in the words of the specification: recompute the
checksum over the candidate minus its trailing checksum bytes (2 for the
CRC16 variants, 1 for Sum8/Xor8) and compare with the trailing bytes read
in the variant's byte order — CCITT big-endian, XMODEM and Modbus
little-endian; kind "无" (None) always accepts. -/
def specChecksumAccepts (cfg : ProtocolConfig) (frame : List Nat) : Bool :=
  if cfg.crc_type = "CRC16-CCITT" then
    decide (unpackBE16 (frame.drop (frame.length - 2)) =
      calculate_ccitt_crc16 (frame.take (frame.length - 2)))
  else if cfg.crc_type = "CRC16-XMODEM" then
    decide (unpackLE16 (frame.drop (frame.length - 2)) =
      calculate_crc16_xmodem (frame.take (frame.length - 2)))
  else if cfg.crc_type = "CRC16-MODBUS" then
    decide (unpackLE16 (frame.drop (frame.length - 2)) =
      calculate_modbus_crc16 (frame.take (frame.length - 2)))
  else if cfg.crc_type = "累加和" then
    decide (frame.getD (frame.length - 1) 0 =
      calculate_sum_check (frame.take (frame.length - 1)))
  else if cfg.crc_type = "异或" then
    decide (frame.getD (frame.length - 1) 0 =
      calculate_xor_check (frame.take (frame.length - 1)))
  else true

/-- The protocol used in the C3 counterexample: CRC16-CCITT with total
frame length 2 (no header, no tail), allowed by the data-model invariant
`length ≥ header + tail + checksum bytes`. -/
def cfgC3 : ProtocolConfig := ⟨"short", [], [], 2, "CRC16-CCITT", true⟩

/-- C3 (counterexample).  The 2-byte frame `FF FF` of the configured frame
length satisfies the claim's acceptance rule (CRC16-CCITT of the empty
slice is 0xFFFF, and the trailing two bytes read big-endian are 0xFFFF),
yet `_verify_crc` rejects every frame shorter than 3 bytes. -/
theorem checksum_byte_order_counterexample :
    ([0xFF, 0xFF] : List Nat).length = cfgC3.length ∧
    specChecksumAccepts cfgC3 [0xFF, 0xFF] = true ∧
    verify_crc cfgC3 [0xFF, 0xFF] = false := by
  decide

/-- C3 (amended).  `_verify_crc` agrees with the claim's acceptance rule
— recomputed checksum compared against the trailing bytes in the
variant's byte order, kind None always accepting — for every frame of at
least 3 bytes (CRC16 variants) resp. 2 bytes (Sum8/Xor8); shorter frames
are rejected unconditionally. -/
theorem checksum_byte_order_amended (cfg : ProtocolConfig) (frame : List Nat) :
    (cfg.crc_type = "无" → verify_crc cfg frame = true) ∧
    ((cfg.crc_type = "CRC16-CCITT" ∨ cfg.crc_type = "CRC16-XMODEM" ∨
        cfg.crc_type = "CRC16-MODBUS") →
      (3 ≤ frame.length →
        verify_crc cfg frame = specChecksumAccepts cfg frame) ∧
      (frame.length < 3 → verify_crc cfg frame = false)) ∧
    ((cfg.crc_type = "累加和" ∨ cfg.crc_type = "异或") →
      (2 ≤ frame.length →
        verify_crc cfg frame = specChecksumAccepts cfg frame) ∧
      (frame.length < 2 → verify_crc cfg frame = false)) := by
  refine ⟨?_, ?_, ?_⟩
  · intro h
    unfold verify_crc
    rw [if_pos h]
  · intro h
    rcases h with h | h | h <;>
      constructor <;> intro hlen <;>
        simp [verify_crc, specChecksumAccepts, h, hlen, Nat.not_le.mpr,
          Nat.not_lt.mpr hlen]
  · intro h
    rcases h with h | h <;>
      constructor <;> intro hlen <;>
        simp [verify_crc, specChecksumAccepts, h, hlen, Nat.not_le.mpr,
          Nat.not_lt.mpr hlen]

/-- Witness for C3 at a concrete 4-byte XMODEM frame (payload `01 02`,
checksum `0x1373` transmitted low byte first). -/
theorem checksum_byte_order_amended_witness :
    verify_crc ⟨"w3", [], [], 4, "CRC16-XMODEM", true⟩ [1, 2, 0x73, 0x13] =
      specChecksumAccepts ⟨"w3", [], [], 4, "CRC16-XMODEM", true⟩
        [1, 2, 0x73, 0x13] :=
  ((checksum_byte_order_amended ⟨"w3", [], [], 4, "CRC16-XMODEM", true⟩
    [1, 2, 0x73, 0x13]).2.1 (Or.inr (Or.inl rfl))).1 (by decide)

/-! ## C10: well-formedness of every emitted frame -/

lemma pyDrop_length_le (i : Int) (l : List Nat) : (pyDrop i l).length ≤ l.length := by
  unfold pyDrop
  split <;> simp

lemma GP_parseLoop_mem_wf (cfg : ProtocolConfig) (hhl : cfg.header.length ≤ cfg.length) :
    ∀ (fuel : Nat) (buf frame : List Nat), frame ∈ (GP_parseLoop cfg fuel buf).1 →
      frame.length = cfg.length ∧
      (cfg.header ≠ [] → cfg.header <+: frame) ∧
      (cfg.tail ≠ [] → cfg.tail <:+ frame) ∧
      verify_crc cfg frame = true := by
  intro fuel
  induction fuel with
  | zero =>
    intro buf frame h
    simp [GP_parseLoop] at h
  | succ f ih =>
    intro buf frame h
    rw [GP_parseLoop] at h
    by_cases h1 : buf.length < cfg.length
    · rw [if_pos h1] at h
      simp at h
    rw [if_neg h1] at h
    rcases hs : (if 0 < cfg.header.length then findSub buf cfg.header else some 0)
      with _ | d
    · rw [hs] at h
      simp at h
    rw [hs] at h
    simp only at h
    by_cases h2 : (buf.drop d).length < cfg.length
    · rw [if_pos h2] at h
      simp at h
    rw [if_neg h2] at h
    by_cases h3 : (0 < cfg.tail.length ∧
        pyDrop ((cfg.length : Int) - (cfg.tail.length : Int))
          ((buf.drop d).take cfg.length) ≠ cfg.tail)
    · rw [if_pos h3] at h
      exact ih _ frame h
    rw [if_neg h3] at h
    by_cases h4 : verify_crc cfg ((buf.drop d).take cfg.length) = false
    · rw [if_pos h4] at h
      exact ih _ frame h
    rw [if_neg h4] at h
    simp only [List.mem_cons] at h
    rcases h with rfl | h
    · have hlen : ((buf.drop d).take cfg.length).length = cfg.length := by
        rw [List.length_take]
        omega
      refine ⟨hlen, ?_, ?_, ?_⟩
      · intro hne
        have hp : 0 < cfg.header.length := List.length_pos.mpr hne
        rw [if_pos hp] at hs
        exact List.prefix_take_iff.mpr ⟨findSub_some_drop hs, by omega⟩
      · intro hne
        have hp : 0 < cfg.tail.length := List.length_pos.mpr hne
        have heq : pyDrop ((cfg.length : Int) - (cfg.tail.length : Int))
            ((buf.drop d).take cfg.length) = cfg.tail := by
          by_contra hcon
          exact h3 ⟨hp, hcon⟩
        have htle : cfg.tail.length ≤ cfg.length := by
          have h5 := pyDrop_length_le ((cfg.length : Int) - (cfg.tail.length : Int))
            ((buf.drop d).take cfg.length)
          rw [heq, hlen] at h5
          exact h5
        rw [← heq]
        unfold pyDrop
        rw [if_pos (by omega : (0:Int) ≤ (cfg.length : Int) - (cfg.tail.length : Int))]
        exact List.drop_suffix _ _
      · cases hb : verify_crc cfg ((buf.drop d).take cfg.length)
        · exact absurd hb h4
        · rfl
    · exact ih _ frame h

lemma DP_parseLoop_mem_wf :
    ∀ (fuel : Nat) (buf frame : List Nat), frame ∈ (DP_parseLoop fuel buf).1 →
      frame.length = 38 ∧ DP_HEADER <+: frame ∧ DP_TAIL <:+ frame := by
  intro fuel
  induction fuel with
  | zero =>
    intro buf frame h
    simp [DP_parseLoop] at h
  | succ f ih =>
    intro buf frame h
    rw [DP_parseLoop] at h
    by_cases h1 : buf.length < DP_LENGTH
    · rw [if_pos h1] at h
      simp at h
    rw [if_neg h1] at h
    rcases hs : findSub buf DP_HEADER with _ | d
    · rw [hs] at h
      simp at h
    rw [hs] at h
    simp only at h
    by_cases h2 : (buf.drop d).length < DP_LENGTH
    · rw [if_pos h2] at h
      simp at h
    rw [if_neg h2] at h
    by_cases h3 : (((buf.drop d).take DP_LENGTH).drop 36).take 2 ≠ DP_TAIL
    · rw [if_pos h3] at h
      exact ih _ frame h
    rw [if_neg h3] at h
    simp only [List.mem_cons] at h
    rcases h with rfl | h
    · have hlen : ((buf.drop d).take DP_LENGTH).length = 38 := by
        rw [List.length_take]
        unfold DP_LENGTH at h2 ⊢
        omega
      refine ⟨hlen, ?_, ?_⟩
      · exact List.prefix_take_iff.mpr ⟨findSub_some_drop hs, by
          unfold DP_LENGTH
          simp [DP_HEADER]⟩
      · have heq : (((buf.drop d).take DP_LENGTH).drop 36).take 2 = DP_TAIL := by
          by_contra hcon
          exact h3 hcon
        have hdlen : (((buf.drop d).take DP_LENGTH).drop 36).length = 2 := by
          rw [List.length_drop, hlen]
        rw [List.take_of_length_le (by omega)] at heq
        rw [← heq]
        exact List.drop_suffix _ _
    · exact ih _ frame h

/-- C10.  Every frame emitted by `GenericProtocolParser.parse` (for a
configuration whose header fits in the frame, the data-model invariant)
has exactly the configured frame length, starts with the header when it is
non-empty, ends with the tail when it is non-empty, and passes the
configured checksum; every frame emitted by the built-in `DataParser` is
exactly 38 bytes, starts with `A8 A8` and ends with `AA AA`. -/
theorem emitted_frame_wellformedness (cfg : ProtocolConfig)
    (hhl : cfg.header.length ≤ cfg.length) :
    (∀ buf frame, frame ∈ (GP_parse cfg buf).1 →
      frame.length = cfg.length ∧
      (cfg.header ≠ [] → cfg.header <+: frame) ∧
      (cfg.tail ≠ [] → cfg.tail <:+ frame) ∧
      verify_crc cfg frame = true) ∧
    (∀ buf frame, frame ∈ (DP_parse buf).1 →
      frame.length = 38 ∧ DP_HEADER <+: frame ∧ DP_TAIL <:+ frame) := by
  constructor
  · intro buf frame h
    unfold GP_parse at h
    split at h
    · exact GP_parseLoop_mem_wf cfg hhl _ buf frame h
    · simp at h
  · intro buf frame h
    exact DP_parseLoop_mem_wf _ buf frame h

/-- Witness for C10: a concrete 6-byte protocol frame found after one junk
byte, and a concrete default-protocol frame. -/
theorem emitted_frame_wellformedness_witness :
    ([0xA8, 0xA8, 9, 7, 0xAA, 0xAA] : List Nat).length = 6 ∧
    ([0xA8, 0xA8] : List Nat) <+: [0xA8, 0xA8, 9, 7, 0xAA, 0xAA] ∧
    ([0xAA, 0xAA] : List Nat) <:+ [0xA8, 0xA8, 9, 7, 0xAA, 0xAA] := by
  have h := (emitted_frame_wellformedness
      ⟨"t", [0xA8, 0xA8], [0xAA, 0xAA], 6, "无", true⟩ (by decide)).1
    [1, 0xA8, 0xA8, 9, 7, 0xAA, 0xAA] [0xA8, 0xA8, 9, 7, 0xAA, 0xAA] (by decide)
  refine ⟨h.1, h.2.1 (by decide), h.2.2.1 (by decide)⟩

/-! ## C1: chunking invariance -/

lemma GP_feedChunks_nil_chunks (cfg : ProtocolConfig) (hL : 1 ≤ cfg.length) :
    ∀ cs : List (List Nat), cs.flatten = [] → GP_feedChunks cfg [] cs = ([], []) := by
  intro cs
  induction cs with
  | nil => intro _; rfl
  | cons c t ih =>
    intro h
    simp only [List.flatten_cons, List.append_eq_nil] at h
    obtain ⟨rfl, ht⟩ := h
    rw [GP_feedChunks]
    have h1 : GP_add_data ([] : List Nat) [] = [] := rfl
    rw [h1, GP_parse_short cfg [] (by simpa using hL)]
    simp [ih ht]

/-- Feeding the remaining chunks of a single valid frame on top of a
proper-prefix buffer emits exactly that frame and empties the buffer. -/
lemma GP_feed_prefix_complete (cfg : ProtocolConfig) (F : List Nat)
    (hen : cfg.enabled = true) (hL1 : 1 ≤ cfg.length) (hL2 : cfg.length ≤ 10240)
    (hv : ValidFrame cfg F) :
    ∀ (cs : List (List Nat)) (P : List Nat), P ++ cs.flatten = F →
      P.length < cfg.length → GP_feedChunks cfg P cs = ([F], []) := by
  intro cs
  induction cs with
  | nil =>
    intro P hjoin hlt
    exfalso
    simp only [List.flatten_nil, List.append_nil] at hjoin
    subst hjoin
    rw [hv.1] at hlt
    omega
  | cons c t ih =>
    intro P hjoin hlt
    have hpre : (P ++ c) ++ t.flatten = F := by
      simpa [List.append_assoc] using hjoin
    have hFlen : F.length = cfg.length := hv.1
    have hlen_le : (P ++ c).length ≤ cfg.length := by
      have hl : ((P ++ c) ++ t.flatten).length = F.length := by rw [hpre]
      rw [hFlen] at hl
      simp only [List.length_append] at hl ⊢
      omega
    rw [GP_feedChunks]
    have hadd : GP_add_data P c = P ++ c :=
      GP_add_data_no_overflow P c
        (by simp only [List.length_append] at hlen_le; omega)
    rw [hadd]
    by_cases hfull : (P ++ c).length < cfg.length
    · rw [GP_parse_short cfg (P ++ c) hfull]
      simp [ih (P ++ c) hpre hfull]
    · have heq : P ++ c = F := by
        refine List.IsPrefix.eq_of_length ⟨t.flatten, hpre⟩ ?_
        rw [hFlen]
        omega
      rw [heq, GP_parse_single_valid cfg F hen hL1 hv]
      have htf : t.flatten = [] := by
        have hx : F ++ t.flatten = F := by
          conv_rhs => rw [← hpre, heq]
        have hy := congrArg List.length hx
        simp only [List.length_append] at hy
        exact List.eq_nil_of_length_eq_zero (by omega)
      rw [GP_feedChunks_nil_chunks cfg hL1 t htf]
      rfl

/-- The C1 counterexample protocol: no header, no tail, no checksum, frame
length 10241 — one byte beyond the synchronizer's 10240-byte buffer cap. -/
def cfgBig : ProtocolConfig := ⟨"big", [], [], 10241, "无", true⟩

/-- The valid (trivially so) 10241-byte frame for `cfgBig`. -/
def bigFrame : List Nat := List.replicate 10241 0

/-- C1 (counterexample).  For the protocol configuration `cfgBig` and its
valid frame `bigFrame`, feeding the whole frame in one `add_data`/`parse`
call emits *no* frame at all: `add_data` truncates the 10241-byte buffer
to its last 5120 bytes before the loop can run, so the claim's universal
quantification over every protocol configuration fails. -/
theorem chunking_invariance_counterexample :
    ValidFrame cfgBig bigFrame ∧
    (GP_feedChunks cfgBig [] [bigFrame]).1 = [] ∧
    (GP_feedChunks cfgBig [] [bigFrame]).1 ≠ [bigFrame] := by
  have hlen : bigFrame.length = 10241 := by
    unfold bigFrame
    rw [List.length_replicate]
  have hval : ValidFrame cfgBig bigFrame := by
    refine ⟨by rw [hlen]; rfl, ?_, ?_, ?_⟩
    · exact List.nil_prefix
    · exact List.nil_suffix
    · unfold verify_crc
      exact if_pos rfl
  have hadd : GP_add_data [] bigFrame = bigFrame.drop 5121 := by
    simp only [GP_add_data, List.nil_append]
    rw [if_pos (by rw [hlen]; norm_num)]
    simp only [pyDrop]
    rw [if_neg (by norm_num : ¬ (0:Int) ≤ -5120), hlen]
    norm_num
    have ht : (10241 : Nat) - Int.toNat 5120 = 5121 := by
      omega
    rw [ht]
  have hshort : (bigFrame.drop 5121).length < cfgBig.length := by
    rw [List.length_drop, hlen]
    norm_num [cfgBig]
  have h2 : (GP_feedChunks cfgBig [] [bigFrame]).1 = [] := by
    rw [GP_feedChunks, hadd, GP_parse_short cfgBig _ hshort]
    simp [GP_feedChunks]
  refine ⟨hval, h2, ?_⟩
  rw [h2]
  intro hc
  cases hc

/-- C1 (amended).  For every *enabled* protocol configuration with frame
length between 1 and the 10240-byte buffer cap, and every valid frame for
it: splitting the frame into arbitrary consecutive sub-chunks and feeding
them sequentially (`add_data` then `parse` per chunk) emits exactly that
single frame, byte-identical to the result of feeding the whole frame in
one call. -/
theorem chunking_invariance_amended (cfg : ProtocolConfig) (F : List Nat)
    (chunks : List (List Nat))
    (hen : cfg.enabled = true) (hL1 : 1 ≤ cfg.length) (hL2 : cfg.length ≤ 10240)
    (hv : ValidFrame cfg F) (hjoin : chunks.flatten = F) :
    (GP_feedChunks cfg [] chunks).1 = [F] ∧
    (GP_feedChunks cfg [] [F]).1 = [F] := by
  constructor
  · rw [GP_feed_prefix_complete cfg F hen hL1 hL2 hv chunks []
      (by simpa using hjoin) (by simpa using hL1)]
  · rw [GP_feed_prefix_complete cfg F hen hL1 hL2 hv [F] []
      (by simp) (by simpa using hL1)]

/-- Witness for C1: a 4-byte framed protocol, its valid frame split into
three chunks. -/
theorem chunking_invariance_amended_witness :
    (GP_feedChunks ⟨"w1", [0xA8], [0xAA], 4, "无", true⟩ []
      [[0xA8], [7, 3], [0xAA]]).1 = [[0xA8, 7, 3, 0xAA]] ∧
    (GP_feedChunks ⟨"w1", [0xA8], [0xAA], 4, "无", true⟩ []
      [[0xA8, 7, 3, 0xAA]]).1 = [[0xA8, 7, 3, 0xAA]] :=
  chunking_invariance_amended ⟨"w1", [0xA8], [0xAA], 4, "无", true⟩
    [0xA8, 7, 3, 0xAA] [[0xA8], [7, 3], [0xAA]] (by decide) (by decide)
    (by decide) (by decide) (by decide)

/-! ## C2: resynchronization after corruption -/

/-- The protocol of the C2 counterexample and witness: 1-byte header `AA`,
no tail, Sum8 checksum, frame length 4. -/
def cfgC2 : ProtocolConfig := ⟨"resync", [0xAA], [], 4, "累加和", true⟩

/-- C2 (counterexample).  Valid frame `AA 00 00 AA`, corrupted frame
`AA AA 00 00` (correct header, correct (empty) tail, wrong Sum8 trailing
byte: it should be 0x54), valid frame `AA 01 00 AB`.  After the
checksum mismatch the parser drops only 1 byte, re-finds a header inside
the corrupted frame's remains, and the candidate `AA 00 00 AA` — which
straddles the corrupted frame and the first byte of the second valid
frame — *passes* the Sum8 check.  The emitted frames are therefore
frame1 and the spurious frame, not frame1 and frame2: the second valid
frame is destroyed. -/
theorem resync_after_corruption_counterexample :
    ValidFrame cfgC2 [0xAA, 0x00, 0x00, 0xAA] ∧
    ValidFrame cfgC2 [0xAA, 0x01, 0x00, 0xAB] ∧
    cfgC2.header <+: [0xAA, 0xAA, 0x00, 0x00] ∧
    ([0xAA, 0xAA, 0x00, 0x00] : List Nat).length = cfgC2.length ∧
    verify_crc cfgC2 [0xAA, 0xAA, 0x00, 0x00] = false ∧
    (GP_feedChunks cfgC2 []
      [[0xAA, 0x00, 0x00, 0xAA] ++ [0xAA, 0xAA, 0x00, 0x00] ++
        [0xAA, 0x01, 0x00, 0xAB]]).1 =
      [[0xAA, 0x00, 0x00, 0xAA], [0xAA, 0x00, 0x00, 0xAA]] ∧
    (GP_feedChunks cfgC2 []
      [[0xAA, 0x00, 0x00, 0xAA] ++ [0xAA, 0xAA, 0x00, 0x00] ++
        [0xAA, 0x01, 0x00, 0xAB]]).1 ≠
      [[0xAA, 0x00, 0x00, 0xAA], [0xAA, 0x01, 0x00, 0xAB]] := by
  decide

/-- C2 (amended).  With a non-empty header and a configured checksum, for
`[V1, C, V2]` concatenated — `V1`, `V2` valid frames, `C` of frame length
with correct header and tail but failing checksum — *provided* the first
header occurrence after dropping `max(1, header_length)` bytes of `C` is
exactly at the start of `V2` (no spurious frame in between, which the
counterexample shows can otherwise be accepted), exactly the two frames
`V1` and `V2` are emitted, in order.  Moreover (second conjunct, fully
universal): after any checksum mismatch exactly `max(1, header_length)`
bytes are dropped from the found header position and the loop restarts
within the same `parse` call, without waiting for new input. -/
theorem resync_after_corruption_amended (cfg : ProtocolConfig)
    (V1 C V2 : List Nat)
    (hen : cfg.enabled = true)
    (hh : cfg.header ≠ [])
    (hL1 : 1 ≤ cfg.length)
    (hv1 : ValidFrame cfg V1) (hv2 : ValidFrame cfg V2)
    (hClen : C.length = cfg.length)
    (hChdr : cfg.header <+: C)
    (hCtail : cfg.tail <:+ C)
    (hCcrc : verify_crc cfg C = false)
    (hsize : 3 * cfg.length ≤ 10240)
    (hres : findSub (C.drop (max 1 cfg.header.length) ++ V2) cfg.header =
      some (cfg.length - max 1 cfg.header.length)) :
    (GP_feedChunks cfg [] [V1 ++ C ++ V2]).1 = [V1, V2] ∧
    (∀ fuel (buf : List Nat) d,
      ¬ buf.length < cfg.length →
      (if 0 < cfg.header.length then findSub buf cfg.header else some 0) =
        some d →
      ¬ (buf.drop d).length < cfg.length →
      ¬(0 < cfg.tail.length ∧
        pyDrop ((cfg.length : Int) - (cfg.tail.length : Int))
          ((buf.drop d).take cfg.length) ≠ cfg.tail) →
      verify_crc cfg ((buf.drop d).take cfg.length) = false →
      GP_parseLoop cfg (fuel + 1) buf =
        GP_parseLoop cfg fuel ((buf.drop d).drop (max 1 cfg.header.length))) := by
  have hpos : 0 < cfg.header.length := List.length_pos.mpr hh
  have hmax : max 1 cfg.header.length = cfg.header.length := by omega
  have hhl : cfg.header.length ≤ cfg.length := by
    have := hv1.2.1.length_le
    rw [hv1.1] at this
    exact this
  rw [hmax] at hres
  constructor
  swap
  · intro fuel buf d hge hfind hge2 htail hcrc
    exact GP_parseLoop_succ_crc_fail cfg fuel buf d hge hfind hge2 htail hcrc
  -- abbreviations
  have hSlen : (V1 ++ (C ++ V2)).length = 3 * cfg.length := by
    simp only [List.length_append, hv1.1, hv2.1, hClen]
    ring
  -- the parse of the whole concatenation
  have hparse : GP_parse cfg (V1 ++ (C ++ V2)) = ([V1, V2], []) := by
    unfold GP_parse
    rw [if_pos hen]
    obtain ⟨f1, hf1⟩ : ∃ f1, (V1 ++ (C ++ V2)).length = f1 + 1 :=
      ⟨(V1 ++ (C ++ V2)).length - 1, by omega⟩
    obtain ⟨f2, hf2⟩ : ∃ f2, f1 = f2 + 1 := ⟨f1 - 1, by omega⟩
    -- iteration 1: emit V1
    have e1take : ((V1 ++ (C ++ V2)).drop 0).take cfg.length = V1 := by
      rw [List.drop_zero]
      exact List.take_left' hv1.1
    have e1drop : ((V1 ++ (C ++ V2)).drop 0).drop cfg.length = C ++ V2 := by
      rw [List.drop_zero]
      exact List.drop_left' hv1.1
    rw [GP_parseLoop_succ_emit cfg ((V1 ++ (C ++ V2)).length) (V1 ++ (C ++ V2)) 0
        (by omega)
        (by rw [if_pos hpos]
            exact findSub_here (hv1.2.1.trans (List.prefix_append _ _)))
        (by rw [List.drop_zero]; omega)
        (by rw [e1take]
            intro hc
            exact hc.2 (tail_slice_of_suffix hv1.1 hv1.2.2.1))
        (by rw [e1take]; exact hv1.2.2.2)]
    rw [e1take, e1drop]
    -- iteration 2: reject C on the checksum, drop header_length bytes
    have hCV2len : (C ++ V2).length = 2 * cfg.length := by
      simp only [List.length_append, hClen, hv2.1]
      ring
    have e2take : ((C ++ V2).drop 0).take cfg.length = C := by
      rw [List.drop_zero]
      exact List.take_left' hClen
    have e2drop : ((C ++ V2).drop 0).drop (max 1 cfg.header.length) =
        C.drop cfg.header.length ++ V2 := by
      rw [List.drop_zero, hmax]
      exact List.drop_append_of_le_length (by omega)
    rw [hf1]
    rw [GP_parseLoop_succ_crc_fail cfg f1 (C ++ V2) 0
        (by omega)
        (by rw [if_pos hpos]; exact findSub_here (hChdr.trans (List.prefix_append _ _)))
        (by rw [List.drop_zero]; omega)
        (by rw [e2take]
            intro hc
            exact hc.2 (tail_slice_of_suffix hClen hCtail))
        (by rw [e2take]; exact hCcrc)]
    rw [e2drop, hf2]
    -- iteration 3: emit V2
    have hrem : (C.drop cfg.header.length ++ V2).length =
        (cfg.length - cfg.header.length) + cfg.length := by
      simp only [List.length_append, List.length_drop, hClen, hv2.1]
    have e3drop : (C.drop cfg.header.length ++ V2).drop
        (cfg.length - cfg.header.length) = V2 :=
      List.drop_left' (by rw [List.length_drop, hClen])
    have e3take : V2.take cfg.length = V2 := by
      rw [← hv2.1]
      exact List.take_length V2
    rw [GP_parseLoop_succ_emit cfg f2 (C.drop cfg.header.length ++ V2)
        (cfg.length - cfg.header.length)
        (by omega)
        (by rw [if_pos hpos]; exact hres)
        (by rw [e3drop, hv2.1]; omega)
        (by rw [e3drop, e3take]
            intro hc
            exact hc.2 (tail_slice_of_suffix hv2.1 hv2.2.2.1))
        (by rw [e3drop, e3take]; exact hv2.2.2.2)]
    rw [e3drop, e3take]
    have e3rest : V2.drop cfg.length = [] := by
      rw [← hv2.1]
      exact List.drop_length V2
    rw [e3rest, GP_parseLoop_nil cfg hL1 f2]
  -- assemble the chunk feed
  have hadd : GP_add_data [] (V1 ++ C ++ V2) = V1 ++ (C ++ V2) := by
    rw [GP_add_data_no_overflow [] (V1 ++ C ++ V2) (by
      simp only [List.length_nil, List.length_append, hv1.1, hv2.1, hClen]
      omega)]
    simp [List.append_assoc]
  rw [GP_feedChunks, hadd, hparse]
  rfl

/-- Witness for C2: a corrupted middle frame whose interior contains no
spurious header, so the resynchronisation lands exactly on the second
valid frame. -/
theorem resync_after_corruption_amended_witness :
    (GP_feedChunks cfgC2 []
      [[0xAA, 0x00, 0x00, 0xAA] ++ [0xAA, 0x01, 0x02, 0x00] ++
        [0xAA, 0x01, 0x00, 0xAB]]).1 =
      [[0xAA, 0x00, 0x00, 0xAA], [0xAA, 0x01, 0x00, 0xAB]] :=
  (resync_after_corruption_amended cfgC2
    [0xAA, 0x00, 0x00, 0xAA] [0xAA, 0x01, 0x02, 0x00] [0xAA, 0x01, 0x00, 0xAB]
    (by decide) (by decide) (by decide) (by decide) (by decide) (by decide)
    (by decide) (by decide) (by decide) (by decide) (by decide)).1

/-! ## C5: dispatcher conflict rule -/

lemma use_default_eq_false_iff (cfgs : List ProtocolConfig) :
    use_default cfgs = false ↔
      ∃ c ∈ cfgs, c.enabled = true ∧ c.header = [0xA8, 0xA8] := by
  unfold use_default
  simp [List.any_eq_true]

lemma use_default_eq_true_iff (cfgs : List ProtocolConfig) :
    use_default cfgs = true ↔
      ∀ c ∈ cfgs, c.enabled = true → c.header ≠ [0xA8, 0xA8] := by
  unfold use_default
  simp [List.any_eq_true]

/-- C5.  On every received chunk: the default synchronizer is fed and
parsed iff no *enabled* custom protocol's header equals `A8 A8` (a
disabled protocol with that header does not suppress it — first two
conjuncts); independently, every constructed custom synchronizer is fed
the chunk and parsed unconditionally (third conjunct), and every frame it
emits is reported tagged with its own protocol's name (fourth and fifth
conjuncts). -/
theorem dispatcher_conflict_rule (st : DispatcherState) (data : List Nat) :
    ((∃ c ∈ st.protocol_configs, c.enabled = true ∧ c.header = [0xA8, 0xA8]) →
      (on_data_received st data).2.1 = [] ∧
      (on_data_received st data).1.defaultBuf = st.defaultBuf) ∧
    ((∀ c ∈ st.protocol_configs, c.enabled = true → c.header ≠ [0xA8, 0xA8]) →
      (on_data_received st data).2.1 =
        (DP_parse (DP_add_data st.defaultBuf data)).1 ∧
      (on_data_received st data).1.defaultBuf =
        (DP_parse (DP_add_data st.defaultBuf data)).2) ∧
    ((on_data_received st data).1.parserStates =
      st.parserStates.map (fun p => (p.1, (GP_parse p.1 (GP_add_data p.2 data)).2))) ∧
    ((on_data_received st data).2.2 =
      (st.parserStates.map (fun p =>
        ((GP_parse p.1 (GP_add_data p.2 data)).1).map
          (fun f => (p.1.name, f)))).flatten) ∧
    (∀ nf ∈ (on_data_received st data).2.2, ∃ p ∈ st.parserStates,
      nf.1 = p.1.name ∧ nf.2 ∈ (GP_parse p.1 (GP_add_data p.2 data)).1) := by
  refine ⟨?_, ?_, ?_, ?_, ?_⟩
  · intro hconf
    have hud : use_default st.protocol_configs = false :=
      (use_default_eq_false_iff st.protocol_configs).mpr hconf
    unfold on_data_received
    rw [hud]
    exact ⟨rfl, rfl⟩
  · intro hnoconf
    have hud : use_default st.protocol_configs = true :=
      (use_default_eq_true_iff st.protocol_configs).mpr hnoconf
    unfold on_data_received
    rw [hud]
    exact ⟨rfl, rfl⟩
  · unfold on_data_received
    cases use_default st.protocol_configs <;>
      · simp only [List.map_map]
        rfl
  · unfold on_data_received
    cases use_default st.protocol_configs <;>
      · simp only [List.map_map]
        rfl
  · intro nf hnf
    unfold on_data_received at hnf
    revert hnf
    cases use_default st.protocol_configs <;>
      · intro hnf
        simp only [List.map_map, List.mem_flatten, List.mem_map] at hnf
        obtain ⟨l, ⟨p, hp, rfl⟩, hnfl⟩ := hnf
        obtain ⟨f, hf, rfl⟩ := by
          simpa [Function.comp] using hnfl
        exact ⟨p, hp, rfl, hf⟩

/-- A disabled custom protocol reusing the default header, for the C5
witness: the default parser is still fed and emits the valid default
frame contained in the chunk. -/
def conflictDisabled : ProtocolConfig := ⟨"dis", [0xA8, 0xA8], [], 4, "无", false⟩

/-- Witness for C5: with only a *disabled* `A8 A8` custom protocol
configured, the default synchronizer is fed and parses the chunk. -/
theorem dispatcher_conflict_rule_witness :
    (on_data_received ⟨[conflictDisabled], [], []⟩ [1, 2, 3]).2.1 =
      (DP_parse (DP_add_data [] [1, 2, 3])).1 ∧
    (on_data_received ⟨[conflictDisabled], [], []⟩ [1, 2, 3]).1.defaultBuf =
      (DP_parse (DP_add_data [] [1, 2, 3])).2 :=
  (dispatcher_conflict_rule ⟨[conflictDisabled], [], []⟩ [1, 2, 3]).2.1
    (by decide)

/-! ## C6: field extraction contract -/

/-- The 14 data-type strings `parse_value_from_frame` understands. -/
def knownNumericTypes : List String :=
  ["uint8", "int8", "uint16 (LE)", "uint16 (BE)", "int16 (LE)", "int16 (BE)",
   "uint32 (LE)", "uint32 (BE)", "int32 (LE)", "int32 (BE)",
   "float (LE)", "float (BE)", "double (LE)", "double (BE)"]

lemma decode_raw_unknown (dt : String) (db : List Nat)
    (h : dt ∉ knownNumericTypes) : decode_raw dt db = none := by
  unfold decode_raw
  iterate 14 rw [if_neg (fun hc => h (by rw [hc]; decide))]

lemma drop_getD_cons (l : List Nat) (s : Nat) (h : s < l.length) :
    l.drop s = l.getD s 0 :: l.drop (s + 1) := by
  induction l generalizing s with
  | nil => simp at h
  | cons a t ih =>
    cases s with
    | zero => simp
    | succ s2 =>
      rw [List.getD_cons_succ]
      simpa using ih s2 (by simpa using h)

lemma drop_take_one (l : List Nat) (s : Nat) (h : s + 1 ≤ l.length) :
    (l.drop s).take 1 = [l.getD s 0] := by
  rw [drop_getD_cons l s (by omega)]
  simp

lemma drop_take_two (l : List Nat) (s : Nat) (h : s + 2 ≤ l.length) :
    (l.drop s).take 2 = [l.getD s 0, l.getD (s + 1) 0] := by
  rw [drop_getD_cons l s (by omega), drop_getD_cons l (s + 1) (by omega)]
  simp

lemma drop_take_four (l : List Nat) (s : Nat) (h : s + 4 ≤ l.length) :
    (l.drop s).take 4 =
      [l.getD s 0, l.getD (s + 1) 0, l.getD (s + 2) 0, l.getD (s + 3) 0] := by
  rw [drop_getD_cons l s (by omega), drop_getD_cons l (s + 1) (by omega),
    drop_getD_cons l (s + 2) (by omega), drop_getD_cons l (s + 3) (by omega)]
  simp

/-- The field-bytes slice, pre-truncated to the type's width `w ≤ c`. -/
lemma db_take (frame : List Nat) (s c w : Nat) (hw : w ≤ c)
    (_hb : s + c ≤ frame.length) :
    ((frame.drop s).take c).take w = (frame.drop s).take w := by
  rw [List.take_take, Nat.min_eq_left hw]

lemma db_length (frame : List Nat) (s c : Nat) (hb : s + c ≤ frame.length) :
    ((frame.drop s).take c).length = c := by
  rw [List.length_take, List.length_drop]
  omega

lemma getD_zero_take_one (l : List Nat) : (l.take 1).getD 0 0 = l.getD 0 0 := by
  cases l <;> simp

/-- The example descriptor used for the claim's endianness vectors:
offset 0, width 2, identity affine transform. -/
def exCfg (t : String) : FieldConfig := ⟨0, 2, t, false, 0, 1, 1, 0⟩

lemma drop_take_eight (l : List Nat) (s : Nat) (h : s + 8 ≤ l.length) :
    (l.drop s).take 8 =
      [l.getD s 0, l.getD (s + 1) 0, l.getD (s + 2) 0, l.getD (s + 3) 0,
       l.getD (s + 4) 0, l.getD (s + 5) 0, l.getD (s + 6) 0, l.getD (s + 7) 0] := by
  rw [drop_getD_cons l s (by omega), drop_getD_cons l (s + 1) (by omega),
    drop_getD_cons l (s + 2) (by omega), drop_getD_cons l (s + 3) (by omega),
    drop_getD_cons l (s + 4) (by omega), drop_getD_cons l (s + 5) (by omega),
    drop_getD_cons l (s + 6) (by omega), drop_getD_cons l (s + 7) (by omega)]
  simp

/-- The example descriptor for the 4-byte float vectors: offset 0, width
4, identity affine transform. -/
def exCfg4 (t : String) : FieldConfig := ⟨0, 4, t, false, 0, 1, 1, 0⟩

/-- C6.  Field extraction contract of `parse_value_from_frame`: it is a
total Lean function into `Option FieldValue` (never raises); it returns
the failure marker whenever `start + width` exceeds the frame length or
the scalar type is unknown; in bit-mode it returns
`(frame[start] >> bit_index) & 1` with no coefficient, divisor or offset
applied; for each of the fourteen numeric non-string types — the ten
integer types, `float (LE)/(BE)` and `double (LE)/(BE)` — it decodes the
declared number of bytes at `start` with the declared signedness,
endianness and (for floats) the exact IEEE-754 value, and returns
`(raw * coefficient / divisor) + offset` (IEEE specials propagate through
the transform as non-failure values); in particular bytes `01 00` read as
uint16-LE give 1, as uint16-BE give 256, `FF FF` as int16-LE give −1, the
standard float/double bit patterns decode to their known values, and an
IEEE NaN or infinity field yields a value, not the failure marker. -/
theorem field_extraction_contract (frame : List Nat) (cfg : FieldConfig) :
    (frame.length < cfg.start_byte + cfg.byte_count →
      parse_value_from_frame frame cfg = none) ∧
    (cfg.bit_mode = false → cfg.data_type ∉ knownNumericTypes →
      parse_value_from_frame frame cfg = none) ∧
    (cfg.bit_mode = true → cfg.start_byte + cfg.byte_count ≤ frame.length →
      cfg.start_byte < frame.length →
      parse_value_from_frame frame cfg =
        some (.num ((((frame.getD cfg.start_byte 0) >>> cfg.bit_index) &&& 1 : ℕ) : ℚ))) ∧
    (cfg.bit_mode = false → cfg.start_byte + cfg.byte_count ≤ frame.length →
      cfg.divisor ≠ 0 →
      ((cfg.data_type = "uint8" → 1 ≤ cfg.byte_count →
        parse_value_from_frame frame cfg =
          some (.num (((frame.getD cfg.start_byte 0 : ℕ) : ℚ) *
            cfg.coefficient / cfg.divisor + cfg.offset))) ∧
      (cfg.data_type = "int8" → 1 ≤ cfg.byte_count →
        parse_value_from_frame frame cfg =
          some (.num (((toSigned 8 (frame.getD cfg.start_byte 0) : ℤ) : ℚ) *
            cfg.coefficient / cfg.divisor + cfg.offset))) ∧
      (cfg.data_type = "uint16 (LE)" → 2 ≤ cfg.byte_count →
        parse_value_from_frame frame cfg =
          some (.num (((frame.getD cfg.start_byte 0 +
              256 * frame.getD (cfg.start_byte + 1) 0 : ℕ) : ℚ) *
            cfg.coefficient / cfg.divisor + cfg.offset))) ∧
      (cfg.data_type = "uint16 (BE)" → 2 ≤ cfg.byte_count →
        parse_value_from_frame frame cfg =
          some (.num (((256 * frame.getD cfg.start_byte 0 +
              frame.getD (cfg.start_byte + 1) 0 : ℕ) : ℚ) *
            cfg.coefficient / cfg.divisor + cfg.offset))) ∧
      (cfg.data_type = "int16 (LE)" → 2 ≤ cfg.byte_count →
        parse_value_from_frame frame cfg =
          some (.num (((toSigned 16 (frame.getD cfg.start_byte 0 +
              256 * frame.getD (cfg.start_byte + 1) 0) : ℤ) : ℚ) *
            cfg.coefficient / cfg.divisor + cfg.offset))) ∧
      (cfg.data_type = "int16 (BE)" → 2 ≤ cfg.byte_count →
        parse_value_from_frame frame cfg =
          some (.num (((toSigned 16 (256 * frame.getD cfg.start_byte 0 +
              frame.getD (cfg.start_byte + 1) 0) : ℤ) : ℚ) *
            cfg.coefficient / cfg.divisor + cfg.offset))) ∧
      (cfg.data_type = "uint32 (LE)" → 4 ≤ cfg.byte_count →
        parse_value_from_frame frame cfg =
          some (.num (((frame.getD cfg.start_byte 0 +
              256 * frame.getD (cfg.start_byte + 1) 0 +
              65536 * frame.getD (cfg.start_byte + 2) 0 +
              16777216 * frame.getD (cfg.start_byte + 3) 0 : ℕ) : ℚ) *
            cfg.coefficient / cfg.divisor + cfg.offset))) ∧
      (cfg.data_type = "uint32 (BE)" → 4 ≤ cfg.byte_count →
        parse_value_from_frame frame cfg =
          some (.num (((16777216 * frame.getD cfg.start_byte 0 +
              65536 * frame.getD (cfg.start_byte + 1) 0 +
              256 * frame.getD (cfg.start_byte + 2) 0 +
              frame.getD (cfg.start_byte + 3) 0 : ℕ) : ℚ) *
            cfg.coefficient / cfg.divisor + cfg.offset))) ∧
      (cfg.data_type = "int32 (LE)" → 4 ≤ cfg.byte_count →
        parse_value_from_frame frame cfg =
          some (.num (((toSigned 32 (frame.getD cfg.start_byte 0 +
              256 * frame.getD (cfg.start_byte + 1) 0 +
              65536 * frame.getD (cfg.start_byte + 2) 0 +
              16777216 * frame.getD (cfg.start_byte + 3) 0) : ℤ) : ℚ) *
            cfg.coefficient / cfg.divisor + cfg.offset))) ∧
      (cfg.data_type = "int32 (BE)" → 4 ≤ cfg.byte_count →
        parse_value_from_frame frame cfg =
          some (.num (((toSigned 32 (16777216 * frame.getD cfg.start_byte 0 +
              65536 * frame.getD (cfg.start_byte + 1) 0 +
              256 * frame.getD (cfg.start_byte + 2) 0 +
              frame.getD (cfg.start_byte + 3) 0) : ℤ) : ℚ) *
            cfg.coefficient / cfg.divisor + cfg.offset))) ∧
      (cfg.data_type = "float (LE)" → 4 ≤ cfg.byte_count →
        parse_value_from_frame frame cfg =
          some (applyAffine (decodeIEEE 8 23
              (frame.getD cfg.start_byte 0 +
               256 * frame.getD (cfg.start_byte + 1) 0 +
               65536 * frame.getD (cfg.start_byte + 2) 0 +
               16777216 * frame.getD (cfg.start_byte + 3) 0))
            cfg.coefficient cfg.divisor cfg.offset)) ∧
      (cfg.data_type = "float (BE)" → 4 ≤ cfg.byte_count →
        parse_value_from_frame frame cfg =
          some (applyAffine (decodeIEEE 8 23
              (16777216 * frame.getD cfg.start_byte 0 +
               65536 * frame.getD (cfg.start_byte + 1) 0 +
               256 * frame.getD (cfg.start_byte + 2) 0 +
               frame.getD (cfg.start_byte + 3) 0))
            cfg.coefficient cfg.divisor cfg.offset)) ∧
      (cfg.data_type = "double (LE)" → 8 ≤ cfg.byte_count →
        parse_value_from_frame frame cfg =
          some (applyAffine (decodeIEEE 11 52
              (frame.getD cfg.start_byte 0 +
               256 * frame.getD (cfg.start_byte + 1) 0 +
               65536 * frame.getD (cfg.start_byte + 2) 0 +
               16777216 * frame.getD (cfg.start_byte + 3) 0 +
               4294967296 * frame.getD (cfg.start_byte + 4) 0 +
               1099511627776 * frame.getD (cfg.start_byte + 5) 0 +
               281474976710656 * frame.getD (cfg.start_byte + 6) 0 +
               72057594037927936 * frame.getD (cfg.start_byte + 7) 0))
            cfg.coefficient cfg.divisor cfg.offset)) ∧
      (cfg.data_type = "double (BE)" → 8 ≤ cfg.byte_count →
        parse_value_from_frame frame cfg =
          some (applyAffine (decodeIEEE 11 52
              (72057594037927936 * frame.getD cfg.start_byte 0 +
               281474976710656 * frame.getD (cfg.start_byte + 1) 0 +
               1099511627776 * frame.getD (cfg.start_byte + 2) 0 +
               4294967296 * frame.getD (cfg.start_byte + 3) 0 +
               16777216 * frame.getD (cfg.start_byte + 4) 0 +
               65536 * frame.getD (cfg.start_byte + 5) 0 +
               256 * frame.getD (cfg.start_byte + 6) 0 +
               frame.getD (cfg.start_byte + 7) 0))
            cfg.coefficient cfg.divisor cfg.offset)))) ∧
    (parse_value_from_frame [0x01, 0x00] (exCfg "uint16 (LE)") = some (.num 1) ∧
     parse_value_from_frame [0x01, 0x00] (exCfg "uint16 (BE)") = some (.num 256) ∧
     parse_value_from_frame [0xFF, 0xFF] (exCfg "int16 (LE)") = some (.num (-1)) ∧
     decodeIEEE 8 23 0x3F800000 = .num 1 ∧
     decodeIEEE 8 23 0xC0000000 = .num (-2) ∧
     decodeIEEE 8 23 0x7F800000 = .special .posInf ∧
     decodeIEEE 8 23 0xFF800000 = .special .negInf ∧
     decodeIEEE 8 23 0x7FC00000 = .special .nan ∧
     decodeIEEE 11 52 0x3FF0000000000000 = .num 1 ∧
     parse_value_from_frame [0x00, 0x00, 0x80, 0x3F] (exCfg4 "float (LE)") =
       some (.num 1) ∧
     parse_value_from_frame [0x00, 0x00, 0xC0, 0x7F] (exCfg4 "float (LE)") =
       some (.special .nan) ∧
     parse_value_from_frame [0x00, 0x00, 0x80, 0x7F] (exCfg4 "float (LE)") =
       some (.special .posInf)) := by
  refine ⟨?_, ?_, ?_, ?_, ?_⟩
  · intro h
    unfold parse_value_from_frame
    rw [if_pos h]
  · intro hbit hdt
    unfold parse_value_from_frame
    split
    · rfl
    rw [hbit]
    simp only [Bool.false_eq_true, if_false]
    rw [decode_raw_unknown cfg.data_type _ hdt]
  · intro hbit hle hlt
    unfold parse_value_from_frame
    rw [if_neg (by omega), hbit, if_pos rfl, if_neg (by omega)]
  · intro hbit hle hdiv
    have hnb : ¬ frame.length < cfg.start_byte + cfg.byte_count := by omega
    have base : ∀ v : FieldValue,
        decode_raw cfg.data_type ((frame.drop cfg.start_byte).take cfg.byte_count) =
          some v →
        parse_value_from_frame frame cfg =
          some (applyAffine v cfg.coefficient cfg.divisor cfg.offset) := by
      intro v hv
      unfold parse_value_from_frame
      rw [if_neg hnb, hbit]
      simp only [Bool.false_eq_true, if_false]
      rw [hv]
      show (if cfg.divisor = 0 then none
        else some (applyAffine v cfg.coefficient cfg.divisor cfg.offset)) = _
      rw [if_neg hdiv]
    have base_num : ∀ r : ℚ,
        decode_raw cfg.data_type ((frame.drop cfg.start_byte).take cfg.byte_count) =
          some (.num r) →
        parse_value_from_frame frame cfg =
          some (.num (r * cfg.coefficient / cfg.divisor + cfg.offset)) := by
      intro r hr
      rw [base (.num r) hr]
      rfl
    have hdb1 : ∀ w, w ≤ cfg.byte_count →
        ¬ ((frame.drop cfg.start_byte).take cfg.byte_count).length < w := by
      intro w hw
      rw [db_length frame _ _ hle]
      omega
    refine ⟨?_, ?_, ?_, ?_, ?_, ?_, ?_, ?_, ?_, ?_, ?_, ?_, ?_, ?_⟩ <;>
      intro hdt hwide
    · refine base_num _ ?_
      unfold decode_raw
      rw [hdt, if_pos rfl, if_neg (hdb1 1 hwide)]
      have h0 : ((frame.drop cfg.start_byte).take cfg.byte_count).getD 0 0 =
          frame.getD cfg.start_byte 0 := by
        rw [← getD_zero_take_one, db_take frame _ _ 1 hwide hle,
          drop_take_one frame _ (by omega)]
        rfl
      rw [h0]
    · refine base_num _ ?_
      unfold decode_raw
      rw [hdt]
      rw [if_neg (by decide), if_pos rfl, if_neg (hdb1 1 hwide)]
      have h0 : ((frame.drop cfg.start_byte).take cfg.byte_count).getD 0 0 =
          frame.getD cfg.start_byte 0 := by
        rw [← getD_zero_take_one, db_take frame _ _ 1 hwide hle,
          drop_take_one frame _ (by omega)]
        rfl
      rw [h0]
    · refine base_num _ ?_
      unfold decode_raw
      rw [hdt]
      iterate 2 rw [if_neg (by decide)]
      rw [if_pos rfl, if_neg (hdb1 2 hwide),
        db_take frame _ _ 2 hwide hle, drop_take_two frame _ (by omega)]
      have harg : asmLE [frame.getD cfg.start_byte 0,
          frame.getD (cfg.start_byte + 1) 0] =
          frame.getD cfg.start_byte 0 + 256 * frame.getD (cfg.start_byte + 1) 0 := by
        simp [asmLE]
      rw [harg]
    · refine base_num _ ?_
      unfold decode_raw
      rw [hdt]
      iterate 3 rw [if_neg (by decide)]
      rw [if_pos rfl, if_neg (hdb1 2 hwide),
        db_take frame _ _ 2 hwide hle, drop_take_two frame _ (by omega)]
      have harg : asmBE [frame.getD cfg.start_byte 0,
          frame.getD (cfg.start_byte + 1) 0] =
          256 * frame.getD cfg.start_byte 0 + frame.getD (cfg.start_byte + 1) 0 := by
        simp [asmBE]
      rw [harg]
    · refine base_num _ ?_
      unfold decode_raw
      rw [hdt]
      iterate 4 rw [if_neg (by decide)]
      rw [if_pos rfl, if_neg (hdb1 2 hwide),
        db_take frame _ _ 2 hwide hle, drop_take_two frame _ (by omega)]
      have harg : asmLE [frame.getD cfg.start_byte 0,
          frame.getD (cfg.start_byte + 1) 0] =
          frame.getD cfg.start_byte 0 + 256 * frame.getD (cfg.start_byte + 1) 0 := by
        simp [asmLE]
      rw [harg]
    · refine base_num _ ?_
      unfold decode_raw
      rw [hdt]
      iterate 5 rw [if_neg (by decide)]
      rw [if_pos rfl, if_neg (hdb1 2 hwide),
        db_take frame _ _ 2 hwide hle, drop_take_two frame _ (by omega)]
      have harg : asmBE [frame.getD cfg.start_byte 0,
          frame.getD (cfg.start_byte + 1) 0] =
          256 * frame.getD cfg.start_byte 0 + frame.getD (cfg.start_byte + 1) 0 := by
        simp [asmBE]
      rw [harg]
    · refine base_num _ ?_
      unfold decode_raw
      rw [hdt]
      iterate 6 rw [if_neg (by decide)]
      rw [if_pos rfl, if_neg (hdb1 4 hwide),
        db_take frame _ _ 4 hwide hle, drop_take_four frame _ (by omega)]
      have harg : asmLE [frame.getD cfg.start_byte 0,
          frame.getD (cfg.start_byte + 1) 0, frame.getD (cfg.start_byte + 2) 0,
          frame.getD (cfg.start_byte + 3) 0] =
          frame.getD cfg.start_byte 0 + 256 * frame.getD (cfg.start_byte + 1) 0 +
          65536 * frame.getD (cfg.start_byte + 2) 0 +
          16777216 * frame.getD (cfg.start_byte + 3) 0 := by
        simp [asmLE]
        ring
      rw [harg]
    · refine base_num _ ?_
      unfold decode_raw
      rw [hdt]
      iterate 7 rw [if_neg (by decide)]
      rw [if_pos rfl, if_neg (hdb1 4 hwide),
        db_take frame _ _ 4 hwide hle, drop_take_four frame _ (by omega)]
      have harg : asmBE [frame.getD cfg.start_byte 0,
          frame.getD (cfg.start_byte + 1) 0, frame.getD (cfg.start_byte + 2) 0,
          frame.getD (cfg.start_byte + 3) 0] =
          16777216 * frame.getD cfg.start_byte 0 +
          65536 * frame.getD (cfg.start_byte + 1) 0 +
          256 * frame.getD (cfg.start_byte + 2) 0 +
          frame.getD (cfg.start_byte + 3) 0 := by
        simp [asmBE]
        ring
      rw [harg]
    · refine base_num _ ?_
      unfold decode_raw
      rw [hdt]
      iterate 8 rw [if_neg (by decide)]
      rw [if_pos rfl, if_neg (hdb1 4 hwide),
        db_take frame _ _ 4 hwide hle, drop_take_four frame _ (by omega)]
      have harg : asmLE [frame.getD cfg.start_byte 0,
          frame.getD (cfg.start_byte + 1) 0, frame.getD (cfg.start_byte + 2) 0,
          frame.getD (cfg.start_byte + 3) 0] =
          frame.getD cfg.start_byte 0 + 256 * frame.getD (cfg.start_byte + 1) 0 +
          65536 * frame.getD (cfg.start_byte + 2) 0 +
          16777216 * frame.getD (cfg.start_byte + 3) 0 := by
        simp [asmLE]
        ring
      rw [harg]
    · refine base_num _ ?_
      unfold decode_raw
      rw [hdt]
      iterate 9 rw [if_neg (by decide)]
      rw [if_pos rfl, if_neg (hdb1 4 hwide),
        db_take frame _ _ 4 hwide hle, drop_take_four frame _ (by omega)]
      have harg : asmBE [frame.getD cfg.start_byte 0,
          frame.getD (cfg.start_byte + 1) 0, frame.getD (cfg.start_byte + 2) 0,
          frame.getD (cfg.start_byte + 3) 0] =
          16777216 * frame.getD cfg.start_byte 0 +
          65536 * frame.getD (cfg.start_byte + 1) 0 +
          256 * frame.getD (cfg.start_byte + 2) 0 +
          frame.getD (cfg.start_byte + 3) 0 := by
        simp [asmBE]
        ring
      rw [harg]
    · refine base _ ?_
      unfold decode_raw
      rw [hdt]
      iterate 10 rw [if_neg (by decide)]
      rw [if_pos rfl, if_neg (hdb1 4 hwide),
        db_take frame _ _ 4 hwide hle, drop_take_four frame _ (by omega)]
      have harg : asmLE [frame.getD cfg.start_byte 0,
          frame.getD (cfg.start_byte + 1) 0, frame.getD (cfg.start_byte + 2) 0,
          frame.getD (cfg.start_byte + 3) 0] =
          frame.getD cfg.start_byte 0 + 256 * frame.getD (cfg.start_byte + 1) 0 +
          65536 * frame.getD (cfg.start_byte + 2) 0 +
          16777216 * frame.getD (cfg.start_byte + 3) 0 := by
        simp [asmLE]
        ring
      rw [harg]
    · refine base _ ?_
      unfold decode_raw
      rw [hdt]
      iterate 11 rw [if_neg (by decide)]
      rw [if_pos rfl, if_neg (hdb1 4 hwide),
        db_take frame _ _ 4 hwide hle, drop_take_four frame _ (by omega)]
      have harg : asmBE [frame.getD cfg.start_byte 0,
          frame.getD (cfg.start_byte + 1) 0, frame.getD (cfg.start_byte + 2) 0,
          frame.getD (cfg.start_byte + 3) 0] =
          16777216 * frame.getD cfg.start_byte 0 +
          65536 * frame.getD (cfg.start_byte + 1) 0 +
          256 * frame.getD (cfg.start_byte + 2) 0 +
          frame.getD (cfg.start_byte + 3) 0 := by
        simp [asmBE]
        ring
      rw [harg]
    · refine base _ ?_
      unfold decode_raw
      rw [hdt]
      iterate 12 rw [if_neg (by decide)]
      rw [if_pos rfl, if_neg (hdb1 8 hwide),
        db_take frame _ _ 8 hwide hle, drop_take_eight frame _ (by omega)]
      have harg : asmLE [frame.getD cfg.start_byte 0,
          frame.getD (cfg.start_byte + 1) 0, frame.getD (cfg.start_byte + 2) 0,
          frame.getD (cfg.start_byte + 3) 0, frame.getD (cfg.start_byte + 4) 0,
          frame.getD (cfg.start_byte + 5) 0, frame.getD (cfg.start_byte + 6) 0,
          frame.getD (cfg.start_byte + 7) 0] =
          frame.getD cfg.start_byte 0 + 256 * frame.getD (cfg.start_byte + 1) 0 +
          65536 * frame.getD (cfg.start_byte + 2) 0 +
          16777216 * frame.getD (cfg.start_byte + 3) 0 +
          4294967296 * frame.getD (cfg.start_byte + 4) 0 +
          1099511627776 * frame.getD (cfg.start_byte + 5) 0 +
          281474976710656 * frame.getD (cfg.start_byte + 6) 0 +
          72057594037927936 * frame.getD (cfg.start_byte + 7) 0 := by
        simp [asmLE]
        ring
      rw [harg]
    · refine base _ ?_
      unfold decode_raw
      rw [hdt]
      iterate 13 rw [if_neg (by decide)]
      rw [if_pos rfl, if_neg (hdb1 8 hwide),
        db_take frame _ _ 8 hwide hle, drop_take_eight frame _ (by omega)]
      have harg : asmBE [frame.getD cfg.start_byte 0,
          frame.getD (cfg.start_byte + 1) 0, frame.getD (cfg.start_byte + 2) 0,
          frame.getD (cfg.start_byte + 3) 0, frame.getD (cfg.start_byte + 4) 0,
          frame.getD (cfg.start_byte + 5) 0, frame.getD (cfg.start_byte + 6) 0,
          frame.getD (cfg.start_byte + 7) 0] =
          72057594037927936 * frame.getD cfg.start_byte 0 +
          281474976710656 * frame.getD (cfg.start_byte + 1) 0 +
          1099511627776 * frame.getD (cfg.start_byte + 2) 0 +
          4294967296 * frame.getD (cfg.start_byte + 3) 0 +
          16777216 * frame.getD (cfg.start_byte + 4) 0 +
          65536 * frame.getD (cfg.start_byte + 5) 0 +
          256 * frame.getD (cfg.start_byte + 6) 0 +
          frame.getD (cfg.start_byte + 7) 0 := by
        simp [asmBE]
        ring
      rw [harg]
  · refine ⟨?_, ?_, ?_, ?_, ?_, ?_, ?_, ?_, ?_, ?_, ?_, ?_⟩
    · norm_num +decide [parse_value_from_frame, decode_raw, exCfg, asmLE,
        toSigned, applyAffine]
    · norm_num +decide [parse_value_from_frame, decode_raw, exCfg, asmBE,
        toSigned, applyAffine]
    · norm_num +decide [parse_value_from_frame, decode_raw, exCfg, asmLE,
        toSigned, applyAffine]
    · norm_num [decodeIEEE, (by decide : (1065353216 : Nat) >>> 31 = 0),
        (by decide : (1065353216 : Nat) >>> 23 &&& 255 = 127),
        (by decide : (1065353216 : Nat) &&& 8388607 = 0)]
    · norm_num [decodeIEEE, (by decide : (3221225472 : Nat) >>> 31 = 1),
        (by decide : (3221225472 : Nat) >>> 23 &&& 255 = 128),
        (by decide : (3221225472 : Nat) &&& 8388607 = 0)]
    · norm_num [decodeIEEE, (by decide : (2139095040 : Nat) >>> 31 = 0),
        (by decide : (2139095040 : Nat) >>> 23 &&& 255 = 255),
        (by decide : (2139095040 : Nat) &&& 8388607 = 0)]
    · norm_num [decodeIEEE, (by decide : (4286578688 : Nat) >>> 31 = 1),
        (by decide : (4286578688 : Nat) >>> 23 &&& 255 = 255),
        (by decide : (4286578688 : Nat) &&& 8388607 = 0)]
    · norm_num [decodeIEEE, (by decide : (2143289344 : Nat) >>> 31 = 0),
        (by decide : (2143289344 : Nat) >>> 23 &&& 255 = 255),
        (by decide : (2143289344 : Nat) &&& 8388607 = 4194304)]
    · norm_num [decodeIEEE, (by decide : (4607182418800017408 : Nat) >>> 63 = 0),
        (by decide : (4607182418800017408 : Nat) >>> 52 &&& 2047 = 1023),
        (by decide : (4607182418800017408 : Nat) &&& 4503599627370495 = 0)]
    · norm_num +decide [parse_value_from_frame, decode_raw, exCfg4, asmLE,
        decodeIEEE, applyAffine,
        (by decide : (1065353216 : Nat) >>> 31 = 0),
        (by decide : (1065353216 : Nat) >>> 23 &&& 255 = 127),
        (by decide : (1065353216 : Nat) &&& 8388607 = 0)]
    · norm_num +decide [parse_value_from_frame, decode_raw, exCfg4, asmLE,
        decodeIEEE, applyAffine, affineSpecial,
        (by decide : (2143289344 : Nat) >>> 31 = 0),
        (by decide : (2143289344 : Nat) >>> 23 &&& 255 = 255),
        (by decide : (2143289344 : Nat) &&& 8388607 = 4194304)]
    · norm_num +decide [parse_value_from_frame, decode_raw, exCfg4, asmLE,
        decodeIEEE, applyAffine, affineSpecial,
        (by decide : (2139095040 : Nat) >>> 31 = 0),
        (by decide : (2139095040 : Nat) >>> 23 &&& 255 = 255),
        (by decide : (2139095040 : Nat) &&& 8388607 = 0)]

/-- Witness for C6: the uint16-LE decode equation at a concrete frame and
descriptor. -/
theorem field_extraction_contract_witness :
    parse_value_from_frame [0x01, 0x00] (exCfg "uint16 (LE)") =
      some (.num ((([0x01, 0x00] : List Nat).getD 0 0 +
        256 * ([0x01, 0x00] : List Nat).getD 1 0 : ℕ) *
        (exCfg "uint16 (LE)").coefficient / (exCfg "uint16 (LE)").divisor +
        (exCfg "uint16 (LE)").offset)) :=
  ((field_extraction_contract [0x01, 0x00] (exCfg "uint16 (LE)")).2.2.2.1
    (by decide) (by decide) (by norm_num [exCfg])).2.2.1 rfl (by decide)

/-! ## C8: recovery debounce and timeout -/

lemma runRecovery_cons (s : RecoveryState) (tp : ℚ × Bool)
    (rest : List (ℚ × Bool)) :
    runRecovery s (tp :: rest) = runRecovery (recovery_tick s tp) rest := rfl

lemma runRecovery_timer_off (ticks : List (ℚ × Bool)) :
    ∀ s : RecoveryState, s.timer_on = false → runRecovery s ticks = s := by
  induction ticks with
  | nil => intro s _; rfl
  | cons tp rest ih =>
    intro s hoff
    rw [runRecovery_cons]
    have : recovery_tick s tp = s := by
      unfold recovery_tick
      rw [if_neg (by rw [hoff]; exact Bool.false_ne_true)]
    rw [this]
    exact ih s hoff

/-- Branch analysis of one probe tick: it either aborts probing, performs
the reconnect, or only updates the stabilization bookkeeping. -/
lemma check_port_recovery_cases (s : RecoveryState) (t : ℚ) (p : Bool) :
    check_port_recovery s t p = stop_recovery_check s ∨
    (check_port_recovery s t p = recover_connection s ∧ p = true ∧
      s.lost_info = true ∧ s.last_state = true ∧
      ∃ u ts, s.start_time = some u ∧ ¬(t - u > 10) ∧
        s.stable_time = some ts ∧ t - ts ≥ 1) ∨
    ((check_port_recovery s t p).attempts = s.attempts ∧
     (check_port_recovery s t p).timer_on = s.timer_on ∧
     (check_port_recovery s t p).lost_info = s.lost_info ∧
     (check_port_recovery s t p).start_time = s.start_time) := by
  unfold check_port_recovery
  cases hst : s.start_time with
  | none => exact Or.inl rfl
  | some u =>
    dsimp only
    by_cases h1 : s.lost_info = false
    · rw [if_pos h1]
      exact Or.inl rfl
    rw [if_neg h1]
    by_cases h2 : t - u > 10
    · rw [if_pos h2]
      exact Or.inl rfl
    rw [if_neg h2]
    by_cases h3 : p = true
    · rw [if_pos h3]
      by_cases h4 : s.last_state = false
      · rw [if_pos h4]
        right; right
        simp
      rw [if_neg h4]
      cases hsb : s.stable_time with
      | none =>
        right; right
        simp [hst]
      | some ts =>
        dsimp only
        by_cases h5 : t - ts ≥ 1
        · rw [if_pos h5]
          right; left
          refine ⟨rfl, h3, ?_, ?_, u, ts, rfl, h2, rfl, h5⟩
          · cases hb : s.lost_info
            · exact absurd hb h1
            · rfl
          · cases hb : s.last_state
            · exact absurd rfl (hb ▸ h4)
            · rfl
        · rw [if_neg h5]
          right; right
          exact ⟨rfl, rfl, rfl, hst⟩
    · rw [if_neg h3]
      right; right
      simp

lemma recovery_tick_at_most_once (s : RecoveryState) (tp : ℚ × Bool)
    (h1 : s.attempts ≤ 1) (h2 : s.timer_on = true → s.attempts = 0) :
    (recovery_tick s tp).attempts ≤ 1 ∧
      ((recovery_tick s tp).timer_on = true → (recovery_tick s tp).attempts = 0) := by
  unfold recovery_tick
  by_cases hon : s.timer_on = true
  · rw [if_pos hon]
    have h0 := h2 hon
    rcases check_port_recovery_cases s tp.1 tp.2 with hc | ⟨hc, -⟩ | ⟨ha, hb, -⟩
    · rw [hc]
      unfold stop_recovery_check
      simp [h0]
    · rw [hc]
      unfold recover_connection stop_recovery_check
      split_ifs <;> simp [h0]
    · rw [ha, hb] at *
      exact ⟨by omega, fun hx => h2 (by rw [← hb, hx])⟩
  · rw [if_neg hon]
    exact ⟨h1, h2⟩

lemma runRecovery_at_most_once (ticks : List (ℚ × Bool)) :
    ∀ s : RecoveryState, s.attempts ≤ 1 → (s.timer_on = true → s.attempts = 0) →
      (runRecovery s ticks).attempts ≤ 1 := by
  induction ticks with
  | nil => intro s h1 _; exact h1
  | cons tp rest ih =>
    intro s h1 h2
    rw [runRecovery_cons]
    obtain ⟨g1, g2⟩ := recovery_tick_at_most_once s tp h1 h2
    exact ih _ g1 g2

/-- The state after the device has just reappeared at time `t1`. -/
def stabilizingState (t0 t1 : ℚ) : RecoveryState :=
  { lost_info := true, start_time := some t0, stable_time := some t1,
    last_state := true, timer_on := true, attempts := 0 }

lemma tick_first_seen (t0 t1 : ℚ) (h : ¬ t1 - t0 > 10) :
    recovery_tick (start_smart_recovery t0) (t1, true) = stabilizingState t0 t1 := by
  show (if t1 - t0 > 10 then stop_recovery_check (start_smart_recovery t0)
        else stabilizingState t0 t1) = stabilizingState t0 t1
  exact if_neg h

lemma tick_stabilizing_hold (t0 t1 t : ℚ) (hwin : ¬ t - t0 > 10)
    (hshort : t - t1 < 1) :
    recovery_tick (stabilizingState t0 t1) (t, true) = stabilizingState t0 t1 := by
  show (if t - t0 > 10 then stop_recovery_check (stabilizingState t0 t1)
        else if t - t1 ≥ 1 then recover_connection (stabilizingState t0 t1)
        else stabilizingState t0 t1) = stabilizingState t0 t1
  rw [if_neg hwin, if_neg (not_le.mpr hshort)]

lemma tick_stabilized_recover (t0 t1 t : ℚ) (hwin : ¬ t - t0 > 10)
    (hlong : t - t1 ≥ 1) :
    recovery_tick (stabilizingState t0 t1) (t, true) =
      { lost_info := false, start_time := none, stable_time := none,
        last_state := false, timer_on := false, attempts := 1 } := by
  show (if t - t0 > 10 then stop_recovery_check (stabilizingState t0 t1)
        else if t - t1 ≥ 1 then recover_connection (stabilizingState t0 t1)
        else stabilizingState t0 t1) = _
  rw [if_neg hwin, if_pos hlong]
  rfl

lemma runRecovery_mids_hold (t0 t1 : ℚ) (mids : List (ℚ × Bool))
    (hm : ∀ m ∈ mids, m.2 = true ∧ ¬(m.1 - t0 > 10) ∧ m.1 - t1 < 1) :
    runRecovery (stabilizingState t0 t1) mids = stabilizingState t0 t1 := by
  induction mids with
  | nil => rfl
  | cons m rest ih =>
    obtain ⟨hp, hwin, hshort⟩ := hm m (List.mem_cons_self m rest)
    rw [runRecovery_cons]
    obtain ⟨mt, mp⟩ := m
    simp only at hp
    subst hp
    rw [tick_stabilizing_hold t0 t1 mt hwin hshort]
    exact ih (fun x hx => hm x (List.mem_cons_of_mem _ hx))

lemma tick_timeout (s : RecoveryState) (u t : ℚ) (p : Bool)
    (hton : s.timer_on = true) (hli : s.lost_info = true)
    (hst : s.start_time = some u) (h : t - u > 10) :
    recovery_tick s (t, p) = stop_recovery_check s := by
  unfold recovery_tick
  rw [if_pos hton]
  unfold check_port_recovery
  split
  · rfl
  · next u2 heq =>
    rw [hst] at heq
    cases heq
    rw [if_neg (by rw [hli]; simp), if_pos h]

lemma tick_disappear (s : RecoveryState) (u t : ℚ)
    (hton : s.timer_on = true) (hli : s.lost_info = true)
    (hst : s.start_time = some u) (hwin : ¬ t - u > 10)
    (hlast : s.last_state = true) :
    recovery_tick s (t, false) =
      { s with stable_time := none, last_state := false } := by
  unfold recovery_tick
  rw [if_pos hton]
  unfold check_port_recovery
  split
  · next heq =>
    rw [hst] at heq
    cases heq
  · next u2 heq =>
    rw [hst] at heq
    cases heq
    rw [if_neg (by rw [hli]; simp), if_neg hwin]
    rw [hlast]
    rfl

/-- C8.  Recovery debounce and timeout, over sampled probe-tick runs:
(a) from the start of probing, at most one reconnect attempt is ever made;
(b) a tick makes an attempt only when probing is live, the port is
present, within the 10-second window, and the port has been stabilizing
since a recorded time at least 1 second earlier;
(c) if the device appears at `t1`, stays present through intermediate
ticks shorter than 1 second of stability, and is still present at `t2`
with `t2 − t1 ≥ 1` inside the window, exactly one attempt is made, after
which probing is stopped and the snapshot cleared whatever later ticks
observe;
(d) a tick more than 10 seconds after the probing start stops the timer,
clears the snapshot, makes no attempt, and no attempt is ever made by
later ticks;
(e) if the device disappears before stabilization completes (within the
window), the stabilization clock resets while the probing start — the
10-second window — is unchanged. -/
theorem recovery_debounce_and_timeout (t0 : ℚ) :
    (∀ ticks : List (ℚ × Bool),
      (runRecovery (start_smart_recovery t0) ticks).attempts ≤ 1) ∧
    (∀ (s : RecoveryState) (t : ℚ) (p : Bool),
      s.attempts < (check_port_recovery s t p).attempts →
      p = true ∧ s.lost_info = true ∧ s.last_state = true ∧
      ∃ u ts, s.start_time = some u ∧ ¬(t - u > 10) ∧
        s.stable_time = some ts ∧ t - ts ≥ 1) ∧
    (∀ (t1 t2 : ℚ) (mids rest : List (ℚ × Bool)),
      ¬(t1 - t0 > 10) → ¬(t2 - t0 > 10) → t2 - t1 ≥ 1 →
      (∀ m ∈ mids, m.2 = true ∧ ¬(m.1 - t0 > 10) ∧ m.1 - t1 < 1) →
      (runRecovery (start_smart_recovery t0)
          ((t1, true) :: mids ++ (t2, true) :: rest)).attempts = 1 ∧
      (runRecovery (start_smart_recovery t0)
          ((t1, true) :: mids ++ (t2, true) :: rest)).timer_on = false ∧
      (runRecovery (start_smart_recovery t0)
          ((t1, true) :: mids ++ (t2, true) :: rest)).lost_info = false) ∧
    (∀ (s : RecoveryState) (u t : ℚ) (p : Bool) (rest : List (ℚ × Bool)),
      s.timer_on = true → s.lost_info = true → s.start_time = some u →
      t - u > 10 →
      runRecovery s ((t, p) :: rest) = stop_recovery_check s ∧
      (runRecovery s ((t, p) :: rest)).attempts = s.attempts) ∧
    (∀ (s : RecoveryState) (u t : ℚ),
      s.timer_on = true → s.lost_info = true → s.start_time = some u →
      ¬(t - u > 10) → s.last_state = true →
      recovery_tick s (t, false) =
        { s with stable_time := none, last_state := false }) := by
  refine ⟨?_, ?_, ?_, ?_, ?_⟩
  · intro ticks
    exact runRecovery_at_most_once ticks (start_smart_recovery t0)
      (by norm_num [start_smart_recovery]) (fun _ => rfl)
  · intro s t p hlt
    rcases check_port_recovery_cases s t p with hc | ⟨hc, h1, h2, h3, h4⟩ | ⟨hc, -⟩
    · rw [hc] at hlt
      simp [stop_recovery_check] at hlt
    · exact ⟨h1, h2, h3, h4⟩
    · omega
  · intro t1 t2 mids rest h1 h2 h3 hm
    simp only [List.cons_append]
    rw [runRecovery_cons, tick_first_seen t0 t1 h1]
    have hsplit : runRecovery (stabilizingState t0 t1)
        (mids ++ (t2, true) :: rest) =
        runRecovery (runRecovery (stabilizingState t0 t1) mids)
          ((t2, true) :: rest) := by
      unfold runRecovery
      rw [List.foldl_append]
    rw [hsplit, runRecovery_mids_hold t0 t1 mids hm, runRecovery_cons,
      tick_stabilized_recover t0 t1 t2 h2 h3,
      runRecovery_timer_off rest _ rfl]
    exact ⟨rfl, rfl, rfl⟩
  · intro s u t p rest hton hli hst h
    have hstep : runRecovery s ((t, p) :: rest) = stop_recovery_check s := by
      rw [runRecovery_cons, tick_timeout s u t p hton hli hst h]
      exact runRecovery_timer_off rest _ rfl
    exact ⟨hstep, by rw [hstep]; rfl⟩
  · intro s u t hton hli hst hwin hlast
    exact tick_disappear s u t hton hli hst hwin hlast

/-- Witness for C8: the positive debounce scenario at concrete times —
probing starts at 0 s, the port appears at 0.5 s, is still unstable at
0.9 s, completes 1 s of stability at 2 s, and a later tick at 3 s changes
nothing: exactly one reconnect attempt. -/
theorem recovery_debounce_and_timeout_witness :
    (runRecovery (start_smart_recovery 0)
      ((1/2, true) :: [((9:ℚ)/10, true)] ++ (2, true) :: [(3, true)])).attempts = 1 ∧
    (runRecovery (start_smart_recovery 0)
      ((1/2, true) :: [((9:ℚ)/10, true)] ++ (2, true) :: [(3, true)])).timer_on = false ∧
    (runRecovery (start_smart_recovery 0)
      ((1/2, true) :: [((9:ℚ)/10, true)] ++ (2, true) :: [(3, true)])).lost_info = false :=
  (recovery_debounce_and_timeout 0).2.2.1 (1/2) 2 [((9:ℚ)/10, true)] [(3, true)]
    (by norm_num) (by norm_num) (by norm_num)
    (by
      intro m hm
      simp only [List.mem_singleton] at hm
      subst hm
      exact ⟨rfl, by norm_num, by norm_num⟩)

end SerialMonitor
